import Mathlib

/-!
# Verification of the DSA1 savegame binary codec

A shallow embedding of `savegame_reader.py`: byte buffers are `List Nat`
(each entry a byte value `< 256`; the predicate `isBytes` records this),
Python's slicing and `bytearray` slice-assignment semantics are modelled
exactly (including the resize that a mismatched-length slice assignment
performs), and the fallible operations return `Except`/`Option`, with
`none`/`.error` exactly at the points where the Python raises.

Strings (`Hero.name`, `Hero.name2`) are modelled as the list of their
latin-1 code points: `bytes.decode('latin-1')` / `str.encode('latin-1')`
are mutually inverse bijections between byte values and code points
0..255, so a `str` obtained from `decode('latin-1')` is faithfully
represented by its byte list, and `encode('latin-1')` fails exactly when
some code point is ≥ 256.
-/

set_option maxRecDepth 8000

namespace DSA

/-- `CHR_SIZE` from savegame_reader.py line 9. -/
def CHR_SIZE : Nat := 1754

/-- `HEADER_SIZE` from savegame_reader.py line 10 (not used by the codec paths). -/
def HEADER_SIZE : Nat := 16

/-- Python `d[a:b]` for nonnegative bounds `a b : Nat` (clamping is automatic
through `take`/`drop`). -/
def pySlice (d : List Nat) (a b : Nat) : List Nat := (d.take b).drop a

/-- Python's normalization of a (possibly negative) slice index against a list
of length `len`: negative indices count from the end, and the result is clamped
into `[0, len]`. -/
def pyIdx (len : Nat) (x : Int) : Nat :=
  (max 0 (min (if x < 0 then x + len else x) (len : Int))).toNat

/-- Python `d[a:b]` for `Int` bounds (used by `SaveGame.from_file`, where
`chr_offset` is a signed value read from the file). -/
def pySliceI (d : List Nat) (a b : Int) : List Nat :=
  (d.take (pyIdx d.length b)).drop (pyIdx d.length a)

/-- Python `bytearray` slice assignment `d[a:b] = r` for nonnegative `a ≤ b`:
the slice bounds are clamped to the current length and the slice is replaced by
`r`, resizing the buffer when `r`'s length differs from the slice width. -/
def pySetSlice (d : List Nat) (a b : Nat) (r : List Nat) : List Nat :=
  d.take a ++ r ++ d.drop (max (min a d.length) (min b d.length))

/-- `bytes.split(b'\x00')[0]`: the bytes strictly before the first null byte
(all of them when there is none). -/
def takeTillNull (s : List Nat) : List Nat := s.takeWhile (fun b => b != 0)

/-- Python `s.ljust(w, b'\x00')`: right-pad with zeros up to width `w`
(no-op when `s` is already at least `w` long). -/
def pyLjust (s : List Nat) (w : Nat) : List Nat :=
  s ++ List.replicate (w - s.length) 0

/-- Little-endian read of `w` bytes starting at offset `off` (out-of-range
reads yield 0; all uses are in bounds, guarded by the length checks). -/
def readLE (d : List Nat) (off : Nat) : Nat → Nat
  | 0 => 0
  | w + 1 => d.getD off 0 + 256 * readLE d (off + 1) w

/-- Two's-complement reinterpretation of an unsigned `w`-bit value, as done by
`struct.unpack` for the signed formats `<h` / `<i`. -/
def toSigned (w : Nat) (n : Nat) : Int :=
  if n < 2 ^ (w - 1) then (n : Int) else (n : Int) - 2 ^ w

/-- `struct.unpack_from('<h', d, off)[0]`. -/
def readI16 (d : List Nat) (off : Nat) : Int := toSigned 16 (readLE d off 2)

/-- `struct.unpack_from('<i', d, off)[0]`. -/
def readI32 (d : List Nat) (off : Nat) : Int := toSigned 32 (readLE d off 4)

/-- The `w` little-endian bytes of `n` (mod `2^(8w)`). -/
def bytesOfNat : Nat → Nat → List Nat
  | 0, _ => []
  | w + 1, n => n % 256 :: bytesOfNat w (n / 256)

/-- The byte string produced by `struct.pack('<h'/'<i', v)` for an in-range
`v`: the `w` little-endian bytes of `v`'s two's complement. -/
def packLE (w : Nat) (v : Int) : List Nat :=
  bytesOfNat w (v % (2 ^ (8 * w))).toNat

/-- `struct.pack('<h', v)` payload bytes. -/
def packI16 (v : Int) : List Nat := packLE 2 v

/-- `struct.pack('<i', v)` payload bytes. -/
def packI32 (v : Int) : List Nat := packLE 4 v

/-- All entries are byte values. -/
def isBytes (d : List Nat) : Prop := ∀ x ∈ d, x < 256

instance (d : List Nat) : Decidable (isBytes d) := by
  unfold isBytes; infer_instance

/-- `CharacterTrait` dataclass (savegame_reader.py lines 14–18). -/
@[ext] structure CharacterTrait where
  normal : Nat
  current : Nat
  modifier : Nat
deriving DecidableEq

/-- `AttackValues` dataclass (lines 20–28). -/
@[ext] structure AttackValues where
  att1 : Nat
  att2 : Nat
  att3 : Nat
  att4 : Nat
  att5 : Nat
  att6 : Nat
  att7 : Nat
deriving DecidableEq

/-- `ParadeValues` dataclass (lines 30–38). -/
@[ext] structure ParadeValues where
  par1 : Nat
  par2 : Nat
  par3 : Nat
  par4 : Nat
  par5 : Nat
  par6 : Nat
  par7 : Nat
deriving DecidableEq

/-- `Hero` dataclass (lines 40–101).  Names are latin-1 code-point lists,
signed fields are `Int`, single-byte fields are `Nat`. -/
structure Hero where
  name : List Nat
  name2 : List Nat
  slots_used : Nat
  typus : Nat
  gender : Nat
  size : Int
  weight : Nat
  god : Nat
  level : Nat
  exp : Int
  money : Int
  rs_bonus1 : Nat
  rs_bonus2 : Nat
  rs_handycap : Nat
  remaining_bp : Nat
  courage : CharacterTrait
  intelligence : CharacterTrait
  charisma : CharacterTrait
  dexterity : CharacterTrait
  agility : CharacterTrait
  intuition : CharacterTrait
  strength : CharacterTrait
  superstition : CharacterTrait
  vertigo : CharacterTrait
  claustrophobia : CharacterTrait
  greed : CharacterTrait
  necrophobia : CharacterTrait
  curiosity : CharacterTrait
  temper : CharacterTrait
  vital_energy_current : Int
  vital_energy_max : Int
  astral_energy_current : Int
  astral_energy_max : Int
  magic_resistance : Nat
  basis_attack_parade : Nat
  att_vals : AttackValues
  par_vals : ParadeValues
  att_bon_weapon : Nat
  par_bon_weapon : Nat
  weapon_type : Nat
  curr_attack_modifier : Nat
  perm_vit_energ_loss : Nat
  unknown1 : Nat
  unknown2 : Nat
  unknown3 : Nat
  unknown4 : Nat
  hunger : Nat
  thirst : Nat
  unknown5 : Nat
  view_direction : Nat
  num_left_actions_per_fight_round : Nat
  unknown6 : Nat
  unknown7 : Nat
  fight_id_last_enemy : Nat
  idx_heroes_group : Nat
  unknown8 : Nat
  unknown9 : Nat
  pos_in_heroes_group : Nat
  portrait : List Nat
  unknown_tail : List Nat
deriving DecidableEq

/-- Record extensionality for `Hero`, one hypothesis per field. -/
theorem Hero.ext (a b : Hero)
    (e1 : a.name = b.name)
    (e2 : a.name2 = b.name2)
    (e3 : a.slots_used = b.slots_used)
    (e4 : a.typus = b.typus)
    (e5 : a.gender = b.gender)
    (e6 : a.size = b.size)
    (e7 : a.weight = b.weight)
    (e8 : a.god = b.god)
    (e9 : a.level = b.level)
    (e10 : a.exp = b.exp)
    (e11 : a.money = b.money)
    (e12 : a.rs_bonus1 = b.rs_bonus1)
    (e13 : a.rs_bonus2 = b.rs_bonus2)
    (e14 : a.rs_handycap = b.rs_handycap)
    (e15 : a.remaining_bp = b.remaining_bp)
    (e16 : a.courage = b.courage)
    (e17 : a.intelligence = b.intelligence)
    (e18 : a.charisma = b.charisma)
    (e19 : a.dexterity = b.dexterity)
    (e20 : a.agility = b.agility)
    (e21 : a.intuition = b.intuition)
    (e22 : a.strength = b.strength)
    (e23 : a.superstition = b.superstition)
    (e24 : a.vertigo = b.vertigo)
    (e25 : a.claustrophobia = b.claustrophobia)
    (e26 : a.greed = b.greed)
    (e27 : a.necrophobia = b.necrophobia)
    (e28 : a.curiosity = b.curiosity)
    (e29 : a.temper = b.temper)
    (e30 : a.vital_energy_current = b.vital_energy_current)
    (e31 : a.vital_energy_max = b.vital_energy_max)
    (e32 : a.astral_energy_current = b.astral_energy_current)
    (e33 : a.astral_energy_max = b.astral_energy_max)
    (e34 : a.magic_resistance = b.magic_resistance)
    (e35 : a.basis_attack_parade = b.basis_attack_parade)
    (e36 : a.att_vals = b.att_vals)
    (e37 : a.par_vals = b.par_vals)
    (e38 : a.att_bon_weapon = b.att_bon_weapon)
    (e39 : a.par_bon_weapon = b.par_bon_weapon)
    (e40 : a.weapon_type = b.weapon_type)
    (e41 : a.curr_attack_modifier = b.curr_attack_modifier)
    (e42 : a.perm_vit_energ_loss = b.perm_vit_energ_loss)
    (e43 : a.unknown1 = b.unknown1)
    (e44 : a.unknown2 = b.unknown2)
    (e45 : a.unknown3 = b.unknown3)
    (e46 : a.unknown4 = b.unknown4)
    (e47 : a.hunger = b.hunger)
    (e48 : a.thirst = b.thirst)
    (e49 : a.unknown5 = b.unknown5)
    (e50 : a.view_direction = b.view_direction)
    (e51 : a.num_left_actions_per_fight_round = b.num_left_actions_per_fight_round)
    (e52 : a.unknown6 = b.unknown6)
    (e53 : a.unknown7 = b.unknown7)
    (e54 : a.fight_id_last_enemy = b.fight_id_last_enemy)
    (e55 : a.idx_heroes_group = b.idx_heroes_group)
    (e56 : a.unknown8 = b.unknown8)
    (e57 : a.unknown9 = b.unknown9)
    (e58 : a.pos_in_heroes_group = b.pos_in_heroes_group)
    (e59 : a.portrait = b.portrait)
    (e60 : a.unknown_tail = b.unknown_tail) : a = b := by
  cases a
  cases b
  exact congr (congr (congr (congr (congr (congr (congr (congr (congr (congr (congr (congr (congr (congr (congr (congr (congr (congr (congr (congr (congr (congr (congr (congr (congr (congr (congr (congr (congr (congr (congr (congr (congr (congr (congr (congr (congr (congr (congr (congr (congr (congr (congr (congr (congr (congr (congr (congr (congr (congr (congr (congr (congr (congr (congr (congr (congr (congr (congr (congrArg Hero.mk e1) e2) e3) e4) e5) e6) e7) e8) e9) e10) e11) e12) e13) e14) e15) e16) e17) e18) e19) e20) e21) e22) e23) e24) e25) e26) e27) e28) e29) e30) e31) e32) e33) e34) e35) e36) e37) e38) e39) e40) e41) e42) e43) e44) e45) e46) e47) e48) e49) e50) e51) e52) e53) e54) e55) e56) e57) e58) e59) e60

/-- Error kinds, one per distinct raise site of the decode paths:
`truncatedRecord` is the `ValueError` of `Hero.from_bytes` (line 107),
`truncatedHeader` is the `struct.error` that `struct.unpack_from('<i', data, 16)`
raises in `SaveGame.from_file` when the file holds fewer than 20 bytes. -/
inductive DecodeErr where
  | truncatedRecord
  | truncatedHeader
deriving DecidableEq

/-- `unpack_trait` helper of `Hero.from_bytes` (lines 110–115). -/
def unpack_trait (data : List Nat) (off : Nat) : CharacterTrait :=
  ⟨data.getD off 0, data.getD (off + 1) 0, data.getD (off + 2) 0⟩

/-- `Hero.from_bytes` (savegame_reader.py lines 103–188). -/
def Hero.from_bytes (data : List Nat) : Except DecodeErr Hero :=
  if data.length < CHR_SIZE then .error .truncatedRecord
  else .ok {
    name := takeTillNull (pySlice data 0 16)
    name2 := takeTillNull (pySlice data 16 32)
    slots_used := data.getD 32 0
    typus := data.getD 33 0
    gender := data.getD 34 0
    size := readI16 data 35
    weight := data.getD 37 0
    god := data.getD 38 0
    level := data.getD 39 0
    exp := readI32 data 40
    money := readI32 data 44
    rs_bonus1 := data.getD 48 0
    rs_bonus2 := data.getD 49 0
    rs_handycap := data.getD 50 0
    remaining_bp := data.getD 51 0
    courage := unpack_trait data 52
    intelligence := unpack_trait data 55
    charisma := unpack_trait data 58
    dexterity := unpack_trait data 61
    agility := unpack_trait data 64
    intuition := unpack_trait data 67
    strength := unpack_trait data 70
    superstition := unpack_trait data 73
    vertigo := unpack_trait data 76
    claustrophobia := unpack_trait data 79
    greed := unpack_trait data 82
    necrophobia := unpack_trait data 85
    curiosity := unpack_trait data 88
    temper := unpack_trait data 91
    vital_energy_current := readI16 data 94
    vital_energy_max := readI16 data 96
    astral_energy_current := readI16 data 98
    astral_energy_max := readI16 data 100
    magic_resistance := data.getD 102 0
    basis_attack_parade := data.getD 103 0
    att_vals := ⟨data.getD 104 0, data.getD 105 0, data.getD 106 0,
      data.getD 107 0, data.getD 108 0, data.getD 109 0, data.getD 110 0⟩
    par_vals := ⟨data.getD 111 0, data.getD 112 0, data.getD 113 0,
      data.getD 114 0, data.getD 115 0, data.getD 116 0, data.getD 117 0⟩
    att_bon_weapon := data.getD 118 0
    par_bon_weapon := data.getD 119 0
    weapon_type := data.getD 120 0
    curr_attack_modifier := data.getD 121 0
    perm_vit_energ_loss := data.getD 122 0
    unknown1 := data.getD 123 0
    unknown2 := data.getD 124 0
    unknown3 := data.getD 125 0
    unknown4 := data.getD 126 0
    hunger := data.getD 127 0
    thirst := data.getD 128 0
    unknown5 := data.getD 129 0
    view_direction := data.getD 130 0
    num_left_actions_per_fight_round := data.getD 131 0
    unknown6 := data.getD 132 0
    unknown7 := data.getD 133 0
    fight_id_last_enemy := data.getD 134 0
    idx_heroes_group := data.getD 135 0
    unknown8 := data.getD 136 0
    unknown9 := data.getD 137 0
    pos_in_heroes_group := data.getD 138 0
    portrait := pySlice data 139 (139 + 1024)
    unknown_tail := data.drop (139 + 1024)
  }

/-- The two's-complement range of a signed `w`-bit field, as enforced by
`struct.pack_into('<h'/'<i', ...)`. -/
def inSignedRange (w : Nat) (v : Int) : Prop :=
  -(2 ^ (w - 1)) ≤ v ∧ v < 2 ^ (w - 1)

instance (w : Nat) (v : Int) : Decidable (inSignedRange w v) := by
  unfold inSignedRange; infer_instance

/-- All the conditions under which the Python `Hero.to_bytes` body runs without
raising, collected in one predicate.  Each conjunct corresponds to an implicit
raise site of the source: `str.encode('latin-1')` raises on a code point ≥ 256
(lines 195–196); `bytearray` index assignment `data[i] = v` raises unless
`0 ≤ v ≤ 255` (every single-byte field); `struct.pack_into('<h'/'<i', ...)`
raises on an out-of-range value (size, exp, money, the four energies); and the
slice assignments for portrait (only reached when its length is 1024) and
unknown_tail require byte values.  Note the source has *no* checks of its own:
name length, portrait length (other than the `== 1024` guard) and tail length
are never validated. -/
def Hero.encodeChecks (h : Hero) : Prop :=
  isBytes h.name ∧ isBytes h.name2 ∧
  h.slots_used < 256 ∧ h.typus < 256 ∧ h.gender < 256 ∧
  inSignedRange 16 h.size ∧
  h.weight < 256 ∧ h.god < 256 ∧ h.level < 256 ∧
  inSignedRange 32 h.exp ∧ inSignedRange 32 h.money ∧
  h.rs_bonus1 < 256 ∧ h.rs_bonus2 < 256 ∧ h.rs_handycap < 256 ∧
  h.remaining_bp < 256 ∧
  (∀ t ∈ [h.courage, h.intelligence, h.charisma, h.dexterity, h.agility,
      h.intuition, h.strength, h.superstition, h.vertigo, h.claustrophobia,
      h.greed, h.necrophobia, h.curiosity, h.temper],
    t.normal < 256 ∧ t.current < 256 ∧ t.modifier < 256) ∧
  inSignedRange 16 h.vital_energy_current ∧ inSignedRange 16 h.vital_energy_max ∧
  inSignedRange 16 h.astral_energy_current ∧ inSignedRange 16 h.astral_energy_max ∧
  h.magic_resistance < 256 ∧ h.basis_attack_parade < 256 ∧
  (h.att_vals.att1 < 256 ∧ h.att_vals.att2 < 256 ∧ h.att_vals.att3 < 256 ∧
    h.att_vals.att4 < 256 ∧ h.att_vals.att5 < 256 ∧ h.att_vals.att6 < 256 ∧
    h.att_vals.att7 < 256) ∧
  (h.par_vals.par1 < 256 ∧ h.par_vals.par2 < 256 ∧ h.par_vals.par3 < 256 ∧
    h.par_vals.par4 < 256 ∧ h.par_vals.par5 < 256 ∧ h.par_vals.par6 < 256 ∧
    h.par_vals.par7 < 256) ∧
  h.att_bon_weapon < 256 ∧ h.par_bon_weapon < 256 ∧ h.weapon_type < 256 ∧
  h.curr_attack_modifier < 256 ∧ h.perm_vit_energ_loss < 256 ∧
  h.unknown1 < 256 ∧ h.unknown2 < 256 ∧ h.unknown3 < 256 ∧ h.unknown4 < 256 ∧
  h.hunger < 256 ∧ h.thirst < 256 ∧ h.unknown5 < 256 ∧ h.view_direction < 256 ∧
  h.num_left_actions_per_fight_round < 256 ∧ h.unknown6 < 256 ∧
  h.unknown7 < 256 ∧ h.fight_id_last_enemy < 256 ∧ h.idx_heroes_group < 256 ∧
  h.unknown8 < 256 ∧ h.unknown9 < 256 ∧ h.pos_in_heroes_group < 256 ∧
  (h.portrait.length = 1024 → isBytes h.portrait) ∧
  isBytes h.unknown_tail

instance (h : Hero) : Decidable h.encodeChecks := by
  unfold Hero.encodeChecks; infer_instance

/-- Lines 194–196 of `to_bytes`: the two name slice assignments.  When a name
encodes to more than 16 bytes, `ljust` pads nothing and the mismatched slice
assignment *grows* the buffer — the source performs no overflow check. -/
def writeNames (h : Hero) (d : List Nat) : List Nat :=
  pySetSlice (pySetSlice d 0 16 (pyLjust h.name 16)) 16 32 (pyLjust h.name2 16)

/-- `pack_trait` helper of `to_bytes` (lines 218–221). -/
def pack_trait (d : List Nat) (off : Nat) (t : CharacterTrait) : List Nat :=
  ((d.set off t.normal).set (off + 1) t.current).set (off + 2) t.modifier

/-- `struct.pack_into(fmt, data, off, v)`: replace the `w` bytes at `off` with
the little-endian two's complement of `v`. -/
def packInto (d : List Nat) (off w : Nat) (v : Int) : List Nat :=
  pySetSlice d off (off + w) (packLE w v)

/-- Lines 198–286 of `to_bytes`: every fixed single-byte / packed field between
offset 32 and offset 138, in source order. -/
def writeScalars (h : Hero) (d : List Nat) : List Nat :=
  let d := (((d.set 32 h.slots_used).set 33 h.typus).set 34 h.gender)
  let d := packInto d 35 2 h.size
  let d := ((d.set 37 h.weight).set 38 h.god).set 39 h.level
  let d := packInto d 40 4 h.exp
  let d := packInto d 44 4 h.money
  let d := (((d.set 48 h.rs_bonus1).set 49 h.rs_bonus2).set 50
    h.rs_handycap).set 51 h.remaining_bp
  let d := pack_trait d 52 h.courage
  let d := pack_trait d 55 h.intelligence
  let d := pack_trait d 58 h.charisma
  let d := pack_trait d 61 h.dexterity
  let d := pack_trait d 64 h.agility
  let d := pack_trait d 67 h.intuition
  let d := pack_trait d 70 h.strength
  let d := pack_trait d 73 h.superstition
  let d := pack_trait d 76 h.vertigo
  let d := pack_trait d 79 h.claustrophobia
  let d := pack_trait d 82 h.greed
  let d := pack_trait d 85 h.necrophobia
  let d := pack_trait d 88 h.curiosity
  let d := pack_trait d 91 h.temper
  let d := packInto d 94 2 h.vital_energy_current
  let d := packInto d 96 2 h.vital_energy_max
  let d := packInto d 98 2 h.astral_energy_current
  let d := packInto d 100 2 h.astral_energy_max
  let d := (d.set 102 h.magic_resistance).set 103 h.basis_attack_parade
  let d := (((((((d.set 104 h.att_vals.att1).set 105 h.att_vals.att2).set 106
    h.att_vals.att3).set 107 h.att_vals.att4).set 108 h.att_vals.att5).set 109
    h.att_vals.att6).set 110 h.att_vals.att7)
  let d := (((((((d.set 111 h.par_vals.par1).set 112 h.par_vals.par2).set 113
    h.par_vals.par3).set 114 h.par_vals.par4).set 115 h.par_vals.par5).set 116
    h.par_vals.par6).set 117 h.par_vals.par7)
  let d := (d.set 118 h.att_bon_weapon).set 119 h.par_bon_weapon
  let d := (d.set 120 h.weapon_type).set 121 h.curr_attack_modifier
  let d := (d.set 122 h.perm_vit_energ_loss).set 123 h.unknown1
  let d := (d.set 124 h.unknown2).set 125 h.unknown3
  let d := (d.set 126 h.unknown4).set 127 h.hunger
  let d := (d.set 128 h.thirst).set 129 h.unknown5
  let d := (d.set 130 h.view_direction).set 131 h.num_left_actions_per_fight_round
  let d := (d.set 132 h.unknown6).set 133 h.unknown7
  let d := (d.set 134 h.fight_id_last_enemy).set 135 h.idx_heroes_group
  let d := (d.set 136 h.unknown8).set 137 h.unknown9
  d.set 138 h.pos_in_heroes_group

/-- Lines 288–290 of `to_bytes`: the portrait is written only when it is
exactly 1024 bytes long; otherwise the region silently keeps its zero fill. -/
def writePortrait (h : Hero) (d : List Nat) : List Nat :=
  if h.portrait.length = 1024 then pySetSlice d 139 (139 + 1024) h.portrait else d

/-- Lines 292–294 of `to_bytes`: `data[1163:1163+len(tail)] = tail` — written
verbatim whatever its length (growing the buffer past 1754 when longer than
591, zero-padded by the initial fill when shorter). -/
def writeTail (h : Hero) (d : List Nat) : List Nat :=
  pySetSlice d 1163 (1163 + h.unknown_tail.length) h.unknown_tail

/-- The buffer built by the body of `Hero.to_bytes` (lines 190–296), assuming
no write raises. -/
def Hero.toBytesRaw (h : Hero) : List Nat :=
  writeTail h (writePortrait h (writeScalars h (writeNames h
    (List.replicate CHR_SIZE 0))))

/-- `Hero.to_bytes` (lines 190–296): `none` exactly when the Python body
raises (see `Hero.encodeChecks`), otherwise the completed buffer. -/
def Hero.to_bytes (h : Hero) : Option (List Nat) :=
  if h.encodeChecks then some h.toBytesRaw else none

/-- `SaveGame` dataclass (lines 298–304). -/
structure SaveGame where
  version_header : List Nat
  chr_offset : Int
  metadata : List Nat
  pre_hero_data : List Nat
  heroes : List Hero
deriving DecidableEq

/-- The hero-window slice `data[start:end]` of iteration `i` of the loop in
`SaveGame.from_file` (lines 324–327). -/
def heroWindow (data : List Nat) (chr_offset : Int) (i : Nat) : List Nat :=
  pySliceI data (chr_offset + i * CHR_SIZE) (chr_offset + i * CHR_SIZE + CHR_SIZE)

/-- The hero-reading loop of `SaveGame.from_file` (lines 323–328), over the
list of loop indices: decodes each window in order, propagating the first
failure (the Python exception). -/
def decodeWindows (data : List Nat) (chr_offset : Int) :
    List Nat → Except DecodeErr (List Hero)
  | [] => .ok []
  | i :: rest => do
      let h ← Hero.from_bytes (heroWindow data chr_offset i)
      let hs ← decodeWindows data chr_offset rest
      return h :: hs

/-- `SaveGame.from_file` (lines 306–336), applied to the file's contents
(the `open`/`read` is outside the model).  `struct.unpack_from('<i', data, 16)`
raises when the file holds fewer than 20 bytes; afterwards the hero count is
Python floor division `(file_size - chr_offset) // CHR_SIZE` (negative when
`chr_offset > file_size`, in which case the loop body never runs), and each
window is the Python slice `data[start:end]` with signed bounds. -/
def SaveGame.from_file (data : List Nat) : Except DecodeErr SaveGame :=
  if data.length < 20 then .error .truncatedHeader
  else
    let chr_offset : Int := readI32 data 16
    let num_heroes : Int := Int.fdiv ((data.length : Int) - chr_offset) CHR_SIZE
    do
      let heroes ← decodeWindows data chr_offset (List.range num_heroes.toNat)
      return {
        version_header := pySlice data 0 16
        chr_offset := chr_offset
        metadata := pySlice data 20 30
        pre_hero_data := pySliceI data 20 chr_offset
        heroes := heroes
      }

/-- The hero-encoding loop of `SaveGame.save_to_file` (lines 343–344):
encodes each hero in order, aborting on the first failure. -/
def encodeHeroes : List Hero → Option (List (List Nat))
  | [] => some []
  | h :: rest => do
      let b ← Hero.to_bytes h
      let bs ← encodeHeroes rest
      return b :: bs

/-- `SaveGame.save_to_file` (lines 338–347), producing the bytes written to
the output file; `none` when a `struct.pack('<i', chr_offset)` range error or
a hero encode error aborts the Python before the file is opened. -/
def SaveGame.save_to_file (s : SaveGame) : Option (List Nat) :=
  if inSignedRange 32 s.chr_offset then
    (encodeHeroes s.heroes).map (fun hs =>
      s.version_header ++ packI32 s.chr_offset ++ s.pre_hero_data ++ hs.flatten)
  else none



deriving instance DecidableEq for Except

/-! ## Generic facts about the Python buffer primitives -/

theorem length_pyLjust (s : List Nat) (w : Nat) :
    (pyLjust s w).length = max w s.length := by
  simp [pyLjust]; omega

theorem pyLjust_length_le {s : List Nat} {w : Nat} (h : s.length ≤ w) :
    (pyLjust s w).length = w := by
  rw [length_pyLjust]; omega

theorem length_bytesOfNat (w n : Nat) : (bytesOfNat w n).length = w := by
  induction w generalizing n with
  | zero => rfl
  | succ w ih => simp [bytesOfNat, ih]

@[simp] theorem length_packLE (w : Nat) (v : Int) : (packLE w v).length = w := by
  simp [packLE, length_bytesOfNat]

/-- The central slice-assignment law: writing `r` over the window `[a, b)` of
`A ++ z` with `A.length = a ≤ b` keeps `A`, inserts `r`, and keeps whatever of
`z` lies past the window. -/
theorem write_mid (A z r : List Nat) (a b : Nat) (ha : A.length = a)
    (hab : a ≤ b) :
    pySetSlice (A ++ z) a b r = (A ++ r) ++ z.drop (b - a) := by
  subst ha
  unfold pySetSlice
  rw [List.take_left]
  have hlen : (A ++ z).length = A.length + z.length := by simp
  rcases le_or_lt b (A.length + z.length) with hb | hb
  · have h1 : min A.length (A ++ z).length = A.length := by omega
    have h2 : min b (A ++ z).length = b := by omega
    rw [h1, h2, max_eq_right hab,
      show b = A.length + (b - A.length) by omega, List.drop_append]
    simp
  · have h1 : min A.length (A ++ z).length = A.length := by omega
    have h2 : min b (A ++ z).length = (A ++ z).length := by omega
    rw [h1, h2, max_eq_right (by omega), List.drop_length,
      List.drop_eq_nil_of_le (by omega)]

theorem set_mid (A z : List Nat) (v i : Nat) (hi : A.length = i)
    (hz : z ≠ []) :
    (A ++ z).set i v = (A ++ [v]) ++ z.drop 1 := by
  subst hi
  cases z with
  | nil => exact absurd rfl hz
  | cons x xs =>
    induction A with
    | nil => simp
    | cons a A ih => simp [List.set, ih]

/-- `set` as a one-byte slice write, for uniform treatment. -/
theorem set_mid_rep (A : List Nat) (v i m : Nat) (hi : A.length = i)
    (hm : 0 < m) :
    (A ++ List.replicate m 0).set i v =
      (A ++ [v]) ++ List.replicate (m - 1) 0 := by
  rw [set_mid A _ v i hi (by simp; omega), List.drop_replicate]

theorem write_mid_rep (A r : List Nat) (a b m : Nat) (ha : A.length = a)
    (hab : a ≤ b) :
    pySetSlice (A ++ List.replicate m 0) a b r =
      (A ++ r) ++ List.replicate (m - (b - a)) 0 := by
  rw [write_mid A _ r a b ha hab, List.drop_replicate]

theorem pySlice_append_drop (B : List Nat) (i j : Nat) (hij : i ≤ j)
    (_hj : j ≤ B.length) :
    pySlice B i j ++ B.drop j = B.drop i := by
  unfold pySlice
  rw [show B.drop j = (B.drop i).drop (j - i) by rw [List.drop_drop]; congr 1; omega]
  rw [show (B.take j).drop i = (B.drop i).take (j - i) by
    rw [List.drop_take]]
  exact List.take_append_drop _ _

theorem getD_cons_drop (B : List Nat) (i : Nat) (hi : i < B.length) :
    B.getD i 0 :: B.drop (i + 1) = B.drop i := by
  induction B generalizing i with
  | nil => simp at hi
  | cons x xs ih =>
    cases i with
    | zero => simp
    | succ n =>
      simp only [List.getD_cons_succ, List.drop_succ_cons]
      exact ih n (by simpa using hi)

theorem length_pySlice (B : List Nat) (i j : Nat) (hj : j ≤ B.length) :
    (pySlice B i j).length = j - i := by
  simp only [pySlice, List.length_drop, List.length_take]
  omega

theorem isBytes_getD {B : List Nat} (hB : isBytes B) (i : Nat) :
    B.getD i 0 < 256 := by
  rcases lt_or_le i B.length with h | h
  · rw [List.getD_eq_getElem _ _ h]; exact hB _ (List.getElem_mem h)
  · rw [List.getD_eq_default _ _ h]; omega

theorem isBytes_take {B : List Nat} (hB : isBytes B) (n : Nat) :
    isBytes (B.take n) := fun x hx => hB x (List.take_subset n B hx)

theorem isBytes_drop {B : List Nat} (hB : isBytes B) (n : Nat) :
    isBytes (B.drop n) := fun x hx => hB x (List.drop_subset n B hx)

theorem isBytes_pySlice {B : List Nat} (hB : isBytes B) (a b : Nat) :
    isBytes (pySlice B a b) := isBytes_drop (isBytes_take hB b) a

theorem isBytes_takeTillNull {B : List Nat} (hB : isBytes B) :
    isBytes (takeTillNull B) := fun x hx =>
  hB x (List.takeWhile_sublist _ |>.subset hx)

theorem takeTillNull_ne_zero {B : List Nat} :
    ∀ x ∈ takeTillNull B, x ≠ 0 := by
  intro x hx
  have := List.mem_takeWhile_imp hx
  simpa using this

theorem length_takeTillNull_le (B : List Nat) :
    (takeTillNull B).length ≤ B.length :=
  (List.takeWhile_sublist _).length_le

/-- `takeWhile (!= 0)` of a nonzero-free list followed by zeros recovers the
list. -/
theorem takeWhile_append_replicate_zero (s : List Nat) (k : Nat)
    (h0 : ∀ x ∈ s, x ≠ 0) :
    (s ++ List.replicate k 0).takeWhile (fun b => b != 0) = s := by
  induction s with
  | nil =>
    cases k with
    | zero => rfl
    | succ k => simp [List.replicate_succ]
  | cons a s ih =>
    have ha : (a != 0) = true := by
      simpa using h0 a (List.mem_cons_self a s)
    simp only [List.cons_append, List.takeWhile_cons, ha, if_true]
    rw [ih (fun x hx => h0 x (List.mem_cons_of_mem a hx))]

theorem takeTillNull_pyLjust {s : List Nat} (h0 : ∀ x ∈ s, x ≠ 0) :
    takeTillNull (pyLjust s 16) = s :=
  takeWhile_append_replicate_zero s _ h0

/-! ## Little-endian pack/unpack round trips -/

theorem readLE_cons (a : Nat) (d : List Nat) (off w : Nat) :
    readLE (a :: d) (off + 1) w = readLE d off w := by
  induction w generalizing off with
  | zero => rfl
  | succ w ih =>
    simp only [readLE, List.getD_cons_succ]
    rw [ih (off + 1)]

theorem readLE_append (X z : List Nat) (k w : Nat) :
    readLE (X ++ z) (X.length + k) w = readLE z k w := by
  induction w generalizing k with
  | zero => rfl
  | succ w ih =>
    simp only [readLE]
    rw [List.getD_append_right X z 0 _ (by omega),
      show X.length + k - X.length = k by omega,
      show X.length + k + 1 = X.length + (k + 1) by omega, ih (k + 1)]

theorem readLE_append_left (z Y : List Nat) (k w : Nat) (h : k + w ≤ z.length) :
    readLE (z ++ Y) k w = readLE z k w := by
  induction w generalizing k with
  | zero => rfl
  | succ w ih =>
    simp only [readLE]
    rw [List.getD_append z Y 0 k (by omega), ih (k + 1) (by omega)]

theorem readLE_bytesOfNat (w n : Nat) (h : n < 2 ^ (8 * w)) :
    readLE (bytesOfNat w n) 0 w = n := by
  induction w generalizing n with
  | zero => simp at h; simp [readLE, h]
  | succ w ih =>
    simp only [bytesOfNat, readLE, List.getD_cons_zero]
    rw [show (0 : Nat) + 1 = 0 + 1 by rfl, readLE_cons, ih (n / 256) (by
      have : 2 ^ (8 * (w + 1)) = 2 ^ (8 * w) * 256 := by ring
      omega)]
    omega

theorem readLE_lt (d : List Nat) (off w : Nat) (hb : isBytes d) :
    readLE d off w < 2 ^ (8 * w) := by
  induction w generalizing off with
  | zero => simp [readLE]
  | succ w ih =>
    simp only [readLE]
    have h1 := isBytes_getD hb off
    have h2 := ih (off + 1)
    have : 2 ^ (8 * (w + 1)) = 2 ^ (8 * w) * 256 := by ring
    omega

theorem toSigned16_emod (v : Int) (h : inSignedRange 16 v) :
    toSigned 16 ((v % 65536).toNat) = v := by
  obtain ⟨h1, h2⟩ := h
  norm_num at h1 h2
  unfold toSigned
  norm_num
  split <;> omega

theorem toSigned32_emod (v : Int) (h : inSignedRange 32 v) :
    toSigned 32 ((v % 4294967296).toNat) = v := by
  obtain ⟨h1, h2⟩ := h
  norm_num at h1 h2
  unfold toSigned
  norm_num
  split <;> omega

theorem toSigned_packmod16 (v : Int) (h : inSignedRange 16 v) :
    toSigned 16 ((v % 2 ^ (8 * 2)).toNat) = v := by
  norm_num
  exact toSigned16_emod v h

theorem toSigned_packmod32 (v : Int) (h : inSignedRange 32 v) :
    toSigned 32 ((v % 2 ^ (8 * 4)).toNat) = v := by
  norm_num
  exact toSigned32_emod v h

/-- Decoding the two packed bytes of an in-range `v` recovers `v`. -/
theorem readI16_packI16 (v : Int) (h : inSignedRange 16 v) (Y : List Nat)
    (X : List Nat) :
    readI16 (X ++ (packI16 v ++ Y)) X.length = v := by
  unfold readI16
  rw [show X.length = X.length + 0 by omega, readLE_append,
    readLE_append_left _ _ _ _ (by simp [packI16, length_packLE]),
    show packI16 v = packLE 2 v from rfl, packLE,
    readLE_bytesOfNat 2 _ (by
      have hnn : 0 ≤ v % 2 ^ (8 * 2) := Int.emod_nonneg v (by norm_num)
      have hlt : v % 2 ^ (8 * 2) < 2 ^ (8 * 2) := Int.emod_lt_of_pos v (by norm_num)
      omega)]
  exact toSigned16_emod v h

theorem readI32_packI32 (v : Int) (h : inSignedRange 32 v) (Y : List Nat)
    (X : List Nat) :
    readI32 (X ++ (packI32 v ++ Y)) X.length = v := by
  unfold readI32
  rw [show X.length = X.length + 0 by omega, readLE_append,
    readLE_append_left _ _ _ _ (by simp [packI32, length_packLE]),
    show packI32 v = packLE 4 v from rfl, packLE,
    readLE_bytesOfNat 4 _ (by
      have hnn : 0 ≤ v % 2 ^ (8 * 4) := Int.emod_nonneg v (by norm_num)
      have hlt : v % 2 ^ (8 * 4) < 2 ^ (8 * 4) := Int.emod_lt_of_pos v (by norm_num)
      omega)]
  exact toSigned32_emod v h

/-- The signed reinterpretation of any `w`-bit value lies in the signed range
(`w ≥ 1`). -/
theorem inSignedRange_toSigned (w n : Nat) (hw : 0 < w) (hn : n < 2 ^ w) :
    inSignedRange w (toSigned w n) := by
  unfold inSignedRange toSigned
  have h2 : 2 ^ w = 2 ^ (w - 1) * 2 := by rw [← pow_succ]; congr 1; omega
  have e1 : ((2 : Int) ^ (w - 1)) = ((2 ^ (w - 1) : Nat) : Int) := by
    push_cast; ring
  have e2 : ((2 : Int) ^ w) = ((2 ^ w : Nat) : Int) := by push_cast; ring
  rw [e1, e2]
  split <;> constructor <;> omega

/-- Packing the signed reinterpretation of `w` in-range bytes reproduces those
bytes. -/
theorem bytesOfNat_readLE (d : List Nat) (off w : Nat) (hb : isBytes d)
    (hw : off + w ≤ d.length) :
    bytesOfNat w (readLE d off w) = pySlice d off (off + w) := by
  induction w generalizing off with
  | zero =>
    simp only [bytesOfNat, pySlice]
    rw [List.drop_eq_nil_of_le (by simp [Nat.min_le_left])]
  | succ w ih =>
    simp only [bytesOfNat, readLE]
    have h0 : d.getD off 0 < 256 := isBytes_getD hb off
    rw [show (d.getD off 0 + 256 * readLE d (off + 1) w) % 256 = d.getD off 0 by
        omega,
      show (d.getD off 0 + 256 * readLE d (off + 1) w) / 256 =
        readLE d (off + 1) w by omega,
      ih (off + 1) (by omega)]
    -- `pySlice d off (off + (w+1)) = d.getD off 0 :: pySlice d (off+1) (off+1+w)`
    unfold pySlice
    rw [show off + (w + 1) = off + 1 + w by omega]
    have hofflt : off < d.length := by omega
    have : (d.take (off + 1 + w)).getD off 0 = d.getD off 0 := by
      rw [List.getD_eq_getElem _ _ (by simp; omega),
        List.getD_eq_getElem _ _ hofflt]
      exact List.getElem_take ..
    rw [← this, getD_cons_drop _ off (by simp; omega)]

/-! ## The encoder's buffer in concatenation normal form -/

/-- The 3 bytes a trait occupies. -/
def traitSeg (t : CharacterTrait) : List Nat := [t.normal, t.current, t.modifier]

/-- The 107 bytes at offsets 32–138 of an encoded record, in layout order. -/
def scalarSegs (h : Hero) : List Nat :=
  [h.slots_used, h.typus, h.gender] ++ packLE 2 h.size ++
  [h.weight, h.god, h.level] ++ packLE 4 h.exp ++ packLE 4 h.money ++
  [h.rs_bonus1, h.rs_bonus2, h.rs_handycap, h.remaining_bp] ++
  traitSeg h.courage ++
  traitSeg h.intelligence ++
  traitSeg h.charisma ++
  traitSeg h.dexterity ++
  traitSeg h.agility ++
  traitSeg h.intuition ++
  traitSeg h.strength ++
  traitSeg h.superstition ++
  traitSeg h.vertigo ++
  traitSeg h.claustrophobia ++
  traitSeg h.greed ++
  traitSeg h.necrophobia ++
  traitSeg h.curiosity ++
  traitSeg h.temper ++
  packLE 2 h.vital_energy_current ++ packLE 2 h.vital_energy_max ++
  packLE 2 h.astral_energy_current ++ packLE 2 h.astral_energy_max ++
  [h.magic_resistance, h.basis_attack_parade] ++
  [h.att_vals.att1, h.att_vals.att2, h.att_vals.att3, h.att_vals.att4,
    h.att_vals.att5, h.att_vals.att6, h.att_vals.att7] ++
  [h.par_vals.par1, h.par_vals.par2, h.par_vals.par3, h.par_vals.par4,
    h.par_vals.par5, h.par_vals.par6, h.par_vals.par7] ++
  [h.att_bon_weapon, h.par_bon_weapon, h.weapon_type, h.curr_attack_modifier, h.perm_vit_energ_loss,
    h.unknown1, h.unknown2, h.unknown3, h.unknown4, h.hunger, h.thirst, h.unknown5, h.view_direction,
    h.num_left_actions_per_fight_round, h.unknown6, h.unknown7, h.fight_id_last_enemy, h.idx_heroes_group, h.unknown8, h.unknown9, h.pos_in_heroes_group]

@[simp] theorem length_traitSeg (t : CharacterTrait) : (traitSeg t).length = 3 := rfl

theorem length_scalarSegs (h : Hero) : (scalarSegs h).length = 107 := by
  simp [scalarSegs]

/-- What ends up in the portrait region: the blob itself when it is exactly
1024 bytes, the untouched zero fill otherwise. -/
def portraitSeg (h : Hero) : List Nat :=
  if h.portrait.length = 1024 then h.portrait else List.replicate 1024 0

@[simp] theorem length_portraitSeg (h : Hero) : (portraitSeg h).length = 1024 := by
  unfold portraitSeg
  split
  · assumption
  · rw [List.length_replicate]

/-- Concatenation normal form of `Hero.toBytesRaw` for heroes whose name
fields fit their 16-byte windows. -/
def heroNF (h : Hero) : List Nat :=
  pyLjust h.name 16 ++ (pyLjust h.name2 16 ++ (scalarSegs h ++ (portraitSeg h ++
    (h.unknown_tail ++ List.replicate (591 - h.unknown_tail.length) 0))))

theorem writeNames_spec (h : Hero) (hn1 : h.name.length ≤ 16) :
    writeNames h (List.replicate CHR_SIZE 0) =
      ((pyLjust h.name 16 ++ pyLjust h.name2 16) : List Nat) ++
        List.replicate 1722 0 := by
  unfold writeNames CHR_SIZE
  rw [show (List.replicate 1754 0 : List Nat) = [] ++ List.replicate 1754 0 from rfl]
  rw [write_mid_rep [] _ 0 16 1754 rfl (by omega)]
  rw [write_mid_rep _ _ 16 32 _ (by simp [pyLjust_length_le hn1]) (by omega)]
  simp only [List.nil_append, List.append_assoc, Nat.reduceSub]

set_option maxHeartbeats 8000000 in
theorem writeScalars_spec (h : Hero) (A z : List Nat) (hA : A.length = 32)
    (hz : 107 ≤ z.length) :
    writeScalars h (A ++ z) = (A ++ scalarSegs h) ++ z.drop 107 := by
  simp only [writeScalars, pack_trait, packInto]
  rw [set_mid _ _ _ _ (by simp only [List.length_append, List.length_cons, List.length_nil, length_packLE, hA, Nat.reduceAdd]) (by apply List.ne_nil_of_length_pos; first | omega | (simp only [List.length_drop]; omega))]
  rw [set_mid _ _ _ _ (by simp only [List.length_append, List.length_cons, List.length_nil, length_packLE, hA, Nat.reduceAdd]) (by apply List.ne_nil_of_length_pos; first | omega | (simp only [List.length_drop]; omega))]
  rw [set_mid _ _ _ _ (by simp only [List.length_append, List.length_cons, List.length_nil, length_packLE, hA, Nat.reduceAdd]) (by apply List.ne_nil_of_length_pos; first | omega | (simp only [List.length_drop]; omega))]
  rw [write_mid _ _ _ _ _ (by simp only [List.length_append, List.length_cons, List.length_nil, length_packLE, hA, Nat.reduceAdd]) (by omega)]
  rw [set_mid _ _ _ _ (by simp only [List.length_append, List.length_cons, List.length_nil, length_packLE, hA, Nat.reduceAdd]) (by apply List.ne_nil_of_length_pos; first | omega | (simp only [List.length_drop]; omega))]
  rw [set_mid _ _ _ _ (by simp only [List.length_append, List.length_cons, List.length_nil, length_packLE, hA, Nat.reduceAdd]) (by apply List.ne_nil_of_length_pos; first | omega | (simp only [List.length_drop]; omega))]
  rw [set_mid _ _ _ _ (by simp only [List.length_append, List.length_cons, List.length_nil, length_packLE, hA, Nat.reduceAdd]) (by apply List.ne_nil_of_length_pos; first | omega | (simp only [List.length_drop]; omega))]
  rw [write_mid _ _ _ _ _ (by simp only [List.length_append, List.length_cons, List.length_nil, length_packLE, hA, Nat.reduceAdd]) (by omega)]
  rw [write_mid _ _ _ _ _ (by simp only [List.length_append, List.length_cons, List.length_nil, length_packLE, hA, Nat.reduceAdd]) (by omega)]
  rw [set_mid _ _ _ _ (by simp only [List.length_append, List.length_cons, List.length_nil, length_packLE, hA, Nat.reduceAdd]) (by apply List.ne_nil_of_length_pos; first | omega | (simp only [List.length_drop]; omega))]
  rw [set_mid _ _ _ _ (by simp only [List.length_append, List.length_cons, List.length_nil, length_packLE, hA, Nat.reduceAdd]) (by apply List.ne_nil_of_length_pos; first | omega | (simp only [List.length_drop]; omega))]
  rw [set_mid _ _ _ _ (by simp only [List.length_append, List.length_cons, List.length_nil, length_packLE, hA, Nat.reduceAdd]) (by apply List.ne_nil_of_length_pos; first | omega | (simp only [List.length_drop]; omega))]
  rw [set_mid _ _ _ _ (by simp only [List.length_append, List.length_cons, List.length_nil, length_packLE, hA, Nat.reduceAdd]) (by apply List.ne_nil_of_length_pos; first | omega | (simp only [List.length_drop]; omega))]
  rw [set_mid _ _ _ _ (by simp only [List.length_append, List.length_cons, List.length_nil, length_packLE, hA, Nat.reduceAdd]) (by apply List.ne_nil_of_length_pos; first | omega | (simp only [List.length_drop]; omega))]
  rw [set_mid _ _ _ _ (by simp only [List.length_append, List.length_cons, List.length_nil, length_packLE, hA, Nat.reduceAdd]) (by apply List.ne_nil_of_length_pos; first | omega | (simp only [List.length_drop]; omega))]
  rw [set_mid _ _ _ _ (by simp only [List.length_append, List.length_cons, List.length_nil, length_packLE, hA, Nat.reduceAdd]) (by apply List.ne_nil_of_length_pos; first | omega | (simp only [List.length_drop]; omega))]
  rw [set_mid _ _ _ _ (by simp only [List.length_append, List.length_cons, List.length_nil, length_packLE, hA, Nat.reduceAdd]) (by apply List.ne_nil_of_length_pos; first | omega | (simp only [List.length_drop]; omega))]
  rw [set_mid _ _ _ _ (by simp only [List.length_append, List.length_cons, List.length_nil, length_packLE, hA, Nat.reduceAdd]) (by apply List.ne_nil_of_length_pos; first | omega | (simp only [List.length_drop]; omega))]
  rw [set_mid _ _ _ _ (by simp only [List.length_append, List.length_cons, List.length_nil, length_packLE, hA, Nat.reduceAdd]) (by apply List.ne_nil_of_length_pos; first | omega | (simp only [List.length_drop]; omega))]
  rw [set_mid _ _ _ _ (by simp only [List.length_append, List.length_cons, List.length_nil, length_packLE, hA, Nat.reduceAdd]) (by apply List.ne_nil_of_length_pos; first | omega | (simp only [List.length_drop]; omega))]
  rw [set_mid _ _ _ _ (by simp only [List.length_append, List.length_cons, List.length_nil, length_packLE, hA, Nat.reduceAdd]) (by apply List.ne_nil_of_length_pos; first | omega | (simp only [List.length_drop]; omega))]
  rw [set_mid _ _ _ _ (by simp only [List.length_append, List.length_cons, List.length_nil, length_packLE, hA, Nat.reduceAdd]) (by apply List.ne_nil_of_length_pos; first | omega | (simp only [List.length_drop]; omega))]
  rw [set_mid _ _ _ _ (by simp only [List.length_append, List.length_cons, List.length_nil, length_packLE, hA, Nat.reduceAdd]) (by apply List.ne_nil_of_length_pos; first | omega | (simp only [List.length_drop]; omega))]
  rw [set_mid _ _ _ _ (by simp only [List.length_append, List.length_cons, List.length_nil, length_packLE, hA, Nat.reduceAdd]) (by apply List.ne_nil_of_length_pos; first | omega | (simp only [List.length_drop]; omega))]
  rw [set_mid _ _ _ _ (by simp only [List.length_append, List.length_cons, List.length_nil, length_packLE, hA, Nat.reduceAdd]) (by apply List.ne_nil_of_length_pos; first | omega | (simp only [List.length_drop]; omega))]
  rw [set_mid _ _ _ _ (by simp only [List.length_append, List.length_cons, List.length_nil, length_packLE, hA, Nat.reduceAdd]) (by apply List.ne_nil_of_length_pos; first | omega | (simp only [List.length_drop]; omega))]
  rw [set_mid _ _ _ _ (by simp only [List.length_append, List.length_cons, List.length_nil, length_packLE, hA, Nat.reduceAdd]) (by apply List.ne_nil_of_length_pos; first | omega | (simp only [List.length_drop]; omega))]
  rw [set_mid _ _ _ _ (by simp only [List.length_append, List.length_cons, List.length_nil, length_packLE, hA, Nat.reduceAdd]) (by apply List.ne_nil_of_length_pos; first | omega | (simp only [List.length_drop]; omega))]
  rw [set_mid _ _ _ _ (by simp only [List.length_append, List.length_cons, List.length_nil, length_packLE, hA, Nat.reduceAdd]) (by apply List.ne_nil_of_length_pos; first | omega | (simp only [List.length_drop]; omega))]
  rw [set_mid _ _ _ _ (by simp only [List.length_append, List.length_cons, List.length_nil, length_packLE, hA, Nat.reduceAdd]) (by apply List.ne_nil_of_length_pos; first | omega | (simp only [List.length_drop]; omega))]
  rw [set_mid _ _ _ _ (by simp only [List.length_append, List.length_cons, List.length_nil, length_packLE, hA, Nat.reduceAdd]) (by apply List.ne_nil_of_length_pos; first | omega | (simp only [List.length_drop]; omega))]
  rw [set_mid _ _ _ _ (by simp only [List.length_append, List.length_cons, List.length_nil, length_packLE, hA, Nat.reduceAdd]) (by apply List.ne_nil_of_length_pos; first | omega | (simp only [List.length_drop]; omega))]
  rw [set_mid _ _ _ _ (by simp only [List.length_append, List.length_cons, List.length_nil, length_packLE, hA, Nat.reduceAdd]) (by apply List.ne_nil_of_length_pos; first | omega | (simp only [List.length_drop]; omega))]
  rw [set_mid _ _ _ _ (by simp only [List.length_append, List.length_cons, List.length_nil, length_packLE, hA, Nat.reduceAdd]) (by apply List.ne_nil_of_length_pos; first | omega | (simp only [List.length_drop]; omega))]
  rw [set_mid _ _ _ _ (by simp only [List.length_append, List.length_cons, List.length_nil, length_packLE, hA, Nat.reduceAdd]) (by apply List.ne_nil_of_length_pos; first | omega | (simp only [List.length_drop]; omega))]
  rw [set_mid _ _ _ _ (by simp only [List.length_append, List.length_cons, List.length_nil, length_packLE, hA, Nat.reduceAdd]) (by apply List.ne_nil_of_length_pos; first | omega | (simp only [List.length_drop]; omega))]
  rw [set_mid _ _ _ _ (by simp only [List.length_append, List.length_cons, List.length_nil, length_packLE, hA, Nat.reduceAdd]) (by apply List.ne_nil_of_length_pos; first | omega | (simp only [List.length_drop]; omega))]
  rw [set_mid _ _ _ _ (by simp only [List.length_append, List.length_cons, List.length_nil, length_packLE, hA, Nat.reduceAdd]) (by apply List.ne_nil_of_length_pos; first | omega | (simp only [List.length_drop]; omega))]
  rw [set_mid _ _ _ _ (by simp only [List.length_append, List.length_cons, List.length_nil, length_packLE, hA, Nat.reduceAdd]) (by apply List.ne_nil_of_length_pos; first | omega | (simp only [List.length_drop]; omega))]
  rw [set_mid _ _ _ _ (by simp only [List.length_append, List.length_cons, List.length_nil, length_packLE, hA, Nat.reduceAdd]) (by apply List.ne_nil_of_length_pos; first | omega | (simp only [List.length_drop]; omega))]
  rw [set_mid _ _ _ _ (by simp only [List.length_append, List.length_cons, List.length_nil, length_packLE, hA, Nat.reduceAdd]) (by apply List.ne_nil_of_length_pos; first | omega | (simp only [List.length_drop]; omega))]
  rw [set_mid _ _ _ _ (by simp only [List.length_append, List.length_cons, List.length_nil, length_packLE, hA, Nat.reduceAdd]) (by apply List.ne_nil_of_length_pos; first | omega | (simp only [List.length_drop]; omega))]
  rw [set_mid _ _ _ _ (by simp only [List.length_append, List.length_cons, List.length_nil, length_packLE, hA, Nat.reduceAdd]) (by apply List.ne_nil_of_length_pos; first | omega | (simp only [List.length_drop]; omega))]
  rw [set_mid _ _ _ _ (by simp only [List.length_append, List.length_cons, List.length_nil, length_packLE, hA, Nat.reduceAdd]) (by apply List.ne_nil_of_length_pos; first | omega | (simp only [List.length_drop]; omega))]
  rw [set_mid _ _ _ _ (by simp only [List.length_append, List.length_cons, List.length_nil, length_packLE, hA, Nat.reduceAdd]) (by apply List.ne_nil_of_length_pos; first | omega | (simp only [List.length_drop]; omega))]
  rw [set_mid _ _ _ _ (by simp only [List.length_append, List.length_cons, List.length_nil, length_packLE, hA, Nat.reduceAdd]) (by apply List.ne_nil_of_length_pos; first | omega | (simp only [List.length_drop]; omega))]
  rw [set_mid _ _ _ _ (by simp only [List.length_append, List.length_cons, List.length_nil, length_packLE, hA, Nat.reduceAdd]) (by apply List.ne_nil_of_length_pos; first | omega | (simp only [List.length_drop]; omega))]
  rw [set_mid _ _ _ _ (by simp only [List.length_append, List.length_cons, List.length_nil, length_packLE, hA, Nat.reduceAdd]) (by apply List.ne_nil_of_length_pos; first | omega | (simp only [List.length_drop]; omega))]
  rw [set_mid _ _ _ _ (by simp only [List.length_append, List.length_cons, List.length_nil, length_packLE, hA, Nat.reduceAdd]) (by apply List.ne_nil_of_length_pos; first | omega | (simp only [List.length_drop]; omega))]
  rw [set_mid _ _ _ _ (by simp only [List.length_append, List.length_cons, List.length_nil, length_packLE, hA, Nat.reduceAdd]) (by apply List.ne_nil_of_length_pos; first | omega | (simp only [List.length_drop]; omega))]
  rw [set_mid _ _ _ _ (by simp only [List.length_append, List.length_cons, List.length_nil, length_packLE, hA, Nat.reduceAdd]) (by apply List.ne_nil_of_length_pos; first | omega | (simp only [List.length_drop]; omega))]
  rw [set_mid _ _ _ _ (by simp only [List.length_append, List.length_cons, List.length_nil, length_packLE, hA, Nat.reduceAdd]) (by apply List.ne_nil_of_length_pos; first | omega | (simp only [List.length_drop]; omega))]
  rw [set_mid _ _ _ _ (by simp only [List.length_append, List.length_cons, List.length_nil, length_packLE, hA, Nat.reduceAdd]) (by apply List.ne_nil_of_length_pos; first | omega | (simp only [List.length_drop]; omega))]
  rw [set_mid _ _ _ _ (by simp only [List.length_append, List.length_cons, List.length_nil, length_packLE, hA, Nat.reduceAdd]) (by apply List.ne_nil_of_length_pos; first | omega | (simp only [List.length_drop]; omega))]
  rw [set_mid _ _ _ _ (by simp only [List.length_append, List.length_cons, List.length_nil, length_packLE, hA, Nat.reduceAdd]) (by apply List.ne_nil_of_length_pos; first | omega | (simp only [List.length_drop]; omega))]
  rw [write_mid _ _ _ _ _ (by simp only [List.length_append, List.length_cons, List.length_nil, length_packLE, hA, Nat.reduceAdd]) (by omega)]
  rw [write_mid _ _ _ _ _ (by simp only [List.length_append, List.length_cons, List.length_nil, length_packLE, hA, Nat.reduceAdd]) (by omega)]
  rw [write_mid _ _ _ _ _ (by simp only [List.length_append, List.length_cons, List.length_nil, length_packLE, hA, Nat.reduceAdd]) (by omega)]
  rw [write_mid _ _ _ _ _ (by simp only [List.length_append, List.length_cons, List.length_nil, length_packLE, hA, Nat.reduceAdd]) (by omega)]
  rw [set_mid _ _ _ _ (by simp only [List.length_append, List.length_cons, List.length_nil, length_packLE, hA, Nat.reduceAdd]) (by apply List.ne_nil_of_length_pos; first | omega | (simp only [List.length_drop]; omega))]
  rw [set_mid _ _ _ _ (by simp only [List.length_append, List.length_cons, List.length_nil, length_packLE, hA, Nat.reduceAdd]) (by apply List.ne_nil_of_length_pos; first | omega | (simp only [List.length_drop]; omega))]
  rw [set_mid _ _ _ _ (by simp only [List.length_append, List.length_cons, List.length_nil, length_packLE, hA, Nat.reduceAdd]) (by apply List.ne_nil_of_length_pos; first | omega | (simp only [List.length_drop]; omega))]
  rw [set_mid _ _ _ _ (by simp only [List.length_append, List.length_cons, List.length_nil, length_packLE, hA, Nat.reduceAdd]) (by apply List.ne_nil_of_length_pos; first | omega | (simp only [List.length_drop]; omega))]
  rw [set_mid _ _ _ _ (by simp only [List.length_append, List.length_cons, List.length_nil, length_packLE, hA, Nat.reduceAdd]) (by apply List.ne_nil_of_length_pos; first | omega | (simp only [List.length_drop]; omega))]
  rw [set_mid _ _ _ _ (by simp only [List.length_append, List.length_cons, List.length_nil, length_packLE, hA, Nat.reduceAdd]) (by apply List.ne_nil_of_length_pos; first | omega | (simp only [List.length_drop]; omega))]
  rw [set_mid _ _ _ _ (by simp only [List.length_append, List.length_cons, List.length_nil, length_packLE, hA, Nat.reduceAdd]) (by apply List.ne_nil_of_length_pos; first | omega | (simp only [List.length_drop]; omega))]
  rw [set_mid _ _ _ _ (by simp only [List.length_append, List.length_cons, List.length_nil, length_packLE, hA, Nat.reduceAdd]) (by apply List.ne_nil_of_length_pos; first | omega | (simp only [List.length_drop]; omega))]
  rw [set_mid _ _ _ _ (by simp only [List.length_append, List.length_cons, List.length_nil, length_packLE, hA, Nat.reduceAdd]) (by apply List.ne_nil_of_length_pos; first | omega | (simp only [List.length_drop]; omega))]
  rw [set_mid _ _ _ _ (by simp only [List.length_append, List.length_cons, List.length_nil, length_packLE, hA, Nat.reduceAdd]) (by apply List.ne_nil_of_length_pos; first | omega | (simp only [List.length_drop]; omega))]
  rw [set_mid _ _ _ _ (by simp only [List.length_append, List.length_cons, List.length_nil, length_packLE, hA, Nat.reduceAdd]) (by apply List.ne_nil_of_length_pos; first | omega | (simp only [List.length_drop]; omega))]
  rw [set_mid _ _ _ _ (by simp only [List.length_append, List.length_cons, List.length_nil, length_packLE, hA, Nat.reduceAdd]) (by apply List.ne_nil_of_length_pos; first | omega | (simp only [List.length_drop]; omega))]
  rw [set_mid _ _ _ _ (by simp only [List.length_append, List.length_cons, List.length_nil, length_packLE, hA, Nat.reduceAdd]) (by apply List.ne_nil_of_length_pos; first | omega | (simp only [List.length_drop]; omega))]
  rw [set_mid _ _ _ _ (by simp only [List.length_append, List.length_cons, List.length_nil, length_packLE, hA, Nat.reduceAdd]) (by apply List.ne_nil_of_length_pos; first | omega | (simp only [List.length_drop]; omega))]
  rw [set_mid _ _ _ _ (by simp only [List.length_append, List.length_cons, List.length_nil, length_packLE, hA, Nat.reduceAdd]) (by apply List.ne_nil_of_length_pos; first | omega | (simp only [List.length_drop]; omega))]
  rw [set_mid _ _ _ _ (by simp only [List.length_append, List.length_cons, List.length_nil, length_packLE, hA, Nat.reduceAdd]) (by apply List.ne_nil_of_length_pos; first | omega | (simp only [List.length_drop]; omega))]
  rw [set_mid _ _ _ _ (by simp only [List.length_append, List.length_cons, List.length_nil, length_packLE, hA, Nat.reduceAdd]) (by apply List.ne_nil_of_length_pos; first | omega | (simp only [List.length_drop]; omega))]
  rw [set_mid _ _ _ _ (by simp only [List.length_append, List.length_cons, List.length_nil, length_packLE, hA, Nat.reduceAdd]) (by apply List.ne_nil_of_length_pos; first | omega | (simp only [List.length_drop]; omega))]
  rw [set_mid _ _ _ _ (by simp only [List.length_append, List.length_cons, List.length_nil, length_packLE, hA, Nat.reduceAdd]) (by apply List.ne_nil_of_length_pos; first | omega | (simp only [List.length_drop]; omega))]
  rw [set_mid _ _ _ _ (by simp only [List.length_append, List.length_cons, List.length_nil, length_packLE, hA, Nat.reduceAdd]) (by apply List.ne_nil_of_length_pos; first | omega | (simp only [List.length_drop]; omega))]
  rw [set_mid _ _ _ _ (by simp only [List.length_append, List.length_cons, List.length_nil, length_packLE, hA, Nat.reduceAdd]) (by apply List.ne_nil_of_length_pos; first | omega | (simp only [List.length_drop]; omega))]
  rw [set_mid _ _ _ _ (by simp only [List.length_append, List.length_cons, List.length_nil, length_packLE, hA, Nat.reduceAdd]) (by apply List.ne_nil_of_length_pos; first | omega | (simp only [List.length_drop]; omega))]
  rw [set_mid _ _ _ _ (by simp only [List.length_append, List.length_cons, List.length_nil, length_packLE, hA, Nat.reduceAdd]) (by apply List.ne_nil_of_length_pos; first | omega | (simp only [List.length_drop]; omega))]
  rw [set_mid _ _ _ _ (by simp only [List.length_append, List.length_cons, List.length_nil, length_packLE, hA, Nat.reduceAdd]) (by apply List.ne_nil_of_length_pos; first | omega | (simp only [List.length_drop]; omega))]
  rw [set_mid _ _ _ _ (by simp only [List.length_append, List.length_cons, List.length_nil, length_packLE, hA, Nat.reduceAdd]) (by apply List.ne_nil_of_length_pos; first | omega | (simp only [List.length_drop]; omega))]
  rw [set_mid _ _ _ _ (by simp only [List.length_append, List.length_cons, List.length_nil, length_packLE, hA, Nat.reduceAdd]) (by apply List.ne_nil_of_length_pos; first | omega | (simp only [List.length_drop]; omega))]
  rw [set_mid _ _ _ _ (by simp only [List.length_append, List.length_cons, List.length_nil, length_packLE, hA, Nat.reduceAdd]) (by apply List.ne_nil_of_length_pos; first | omega | (simp only [List.length_drop]; omega))]
  rw [set_mid _ _ _ _ (by simp only [List.length_append, List.length_cons, List.length_nil, length_packLE, hA, Nat.reduceAdd]) (by apply List.ne_nil_of_length_pos; first | omega | (simp only [List.length_drop]; omega))]
  rw [set_mid _ _ _ _ (by simp only [List.length_append, List.length_cons, List.length_nil, length_packLE, hA, Nat.reduceAdd]) (by apply List.ne_nil_of_length_pos; first | omega | (simp only [List.length_drop]; omega))]
  rw [set_mid _ _ _ _ (by simp only [List.length_append, List.length_cons, List.length_nil, length_packLE, hA, Nat.reduceAdd]) (by apply List.ne_nil_of_length_pos; first | omega | (simp only [List.length_drop]; omega))]
  rw [set_mid _ _ _ _ (by simp only [List.length_append, List.length_cons, List.length_nil, length_packLE, hA, Nat.reduceAdd]) (by apply List.ne_nil_of_length_pos; first | omega | (simp only [List.length_drop]; omega))]
  rw [set_mid _ _ _ _ (by simp only [List.length_append, List.length_cons, List.length_nil, length_packLE, hA, Nat.reduceAdd]) (by apply List.ne_nil_of_length_pos; first | omega | (simp only [List.length_drop]; omega))]
  rw [set_mid _ _ _ _ (by simp only [List.length_append, List.length_cons, List.length_nil, length_packLE, hA, Nat.reduceAdd]) (by apply List.ne_nil_of_length_pos; first | omega | (simp only [List.length_drop]; omega))]
  rw [set_mid _ _ _ _ (by simp only [List.length_append, List.length_cons, List.length_nil, length_packLE, hA, Nat.reduceAdd]) (by apply List.ne_nil_of_length_pos; first | omega | (simp only [List.length_drop]; omega))]
  rw [set_mid _ _ _ _ (by simp only [List.length_append, List.length_cons, List.length_nil, length_packLE, hA, Nat.reduceAdd]) (by apply List.ne_nil_of_length_pos; first | omega | (simp only [List.length_drop]; omega))]
  rw [set_mid _ _ _ _ (by simp only [List.length_append, List.length_cons, List.length_nil, length_packLE, hA, Nat.reduceAdd]) (by apply List.ne_nil_of_length_pos; first | omega | (simp only [List.length_drop]; omega))]
  rw [set_mid _ _ _ _ (by simp only [List.length_append, List.length_cons, List.length_nil, length_packLE, hA, Nat.reduceAdd]) (by apply List.ne_nil_of_length_pos; first | omega | (simp only [List.length_drop]; omega))]
  simp [scalarSegs, traitSeg, List.append_assoc, List.drop_drop]

theorem writePortrait_spec (h : Hero) (A : List Nat) (hA : A.length = 139)
    (m : Nat) (hm : 1024 ≤ m) :
    writePortrait h (A ++ List.replicate m 0) =
      (A ++ portraitSeg h) ++ List.replicate (m - 1024) 0 := by
  unfold writePortrait portraitSeg
  split
  · rw [write_mid_rep _ _ 139 (139 + 1024) _ hA (by omega)]
  · rw [List.append_assoc, ← List.replicate_add,
      show 1024 + (m - 1024) = m by omega]

theorem writeTail_spec (h : Hero) (A : List Nat) (hA : A.length = 1163)
    (m : Nat) :
    writeTail h (A ++ List.replicate m 0) =
      (A ++ h.unknown_tail) ++ List.replicate (m - h.unknown_tail.length) 0 := by
  unfold writeTail
  rw [write_mid_rep _ _ 1163 (1163 + h.unknown_tail.length) _ hA (by omega)]
  simp

/-- For heroes whose two names fit their 16-byte windows, the encoder's
buffer is exactly the concatenation normal form `heroNF`. -/
theorem toBytesRaw_NF (h : Hero) (hn1 : h.name.length ≤ 16)
    (hn2 : h.name2.length ≤ 16) :
    h.toBytesRaw = heroNF h := by
  unfold Hero.toBytesRaw
  rw [writeNames_spec h hn1]
  rw [writeScalars_spec h _ _
    (by simp [pyLjust_length_le hn1, pyLjust_length_le hn2]) (by simp)]
  rw [List.drop_replicate, show (1722 - 107 : Nat) = 1615 from rfl]
  rw [writePortrait_spec h _
    (by simp [pyLjust_length_le hn1, pyLjust_length_le hn2, length_scalarSegs])
    1615 (by omega)]
  rw [show (1615 - 1024 : Nat) = 591 from rfl]
  rw [writeTail_spec h _
    (by simp [pyLjust_length_le hn1, pyLjust_length_le hn2, length_scalarSegs])
    591]
  simp [heroNF, List.append_assoc]

theorem length_heroNF (h : Hero) (hn1 : h.name.length ≤ 16)
    (hn2 : h.name2.length ≤ 16) :
    (heroNF h).length = 1163 + max 591 h.unknown_tail.length := by
  simp [heroNF, pyLjust_length_le hn1, pyLjust_length_le hn2, length_scalarSegs]
  omega

/-! ## Length laws for the raw writes (no assumption on field sizes) -/

theorem length_pySetSlice (d : List Nat) (a b : Nat) (r : List Nat) :
    (pySetSlice d a b r).length =
      min a d.length + r.length +
        (d.length - max (min a d.length) (min b d.length)) := by
  simp only [pySetSlice, List.length_append, List.length_take, List.length_drop]

theorem length_writeNames (h : Hero) (d : List Nat) (hd : 32 ≤ d.length) :
    (writeNames h d).length =
      (pyLjust h.name 16).length + (pyLjust h.name2 16).length +
        (d.length - 32) := by
  unfold writeNames
  simp only [length_pySetSlice, length_pyLjust]
  omega

set_option maxHeartbeats 8000000 in
theorem length_writeScalars (h : Hero) (d : List Nat) (hd : 139 ≤ d.length) :
    (writeScalars h d).length = d.length := by
  simp only [writeScalars, pack_trait, packInto, length_pySetSlice,
    List.length_set, length_packLE]
  omega

theorem length_writePortrait (h : Hero) (d : List Nat) (hd : 1163 ≤ d.length) :
    (writePortrait h d).length = d.length := by
  unfold writePortrait
  split
  · next hp => simp only [length_pySetSlice, hp]; omega
  · rfl

theorem length_writeTail (h : Hero) (d : List Nat) (hd : 1163 ≤ d.length) :
    (writeTail h d).length = max d.length (1163 + h.unknown_tail.length) := by
  unfold writeTail
  simp only [length_pySetSlice]
  omega

/-! ## Reading back from the normal form -/

theorem readLE_append_right (X Z : List Nat) (off w : Nat)
    (hoff : X.length ≤ off) :
    readLE (X ++ Z) off w = readLE Z (off - X.length) w := by
  rw [show off = X.length + (off - X.length) by omega, readLE_append]
  congr 1
  omega

theorem drop_append_right (X Z : List Nat) (n : Nat) (h : X.length ≤ n) :
    (X ++ Z).drop n = Z.drop (n - X.length) := by
  conv_lhs => rw [show n = X.length + (n - X.length) by omega]
  rw [List.drop_append]

theorem pySlice_append_right (X Z : List Nat) (a b : Nat)
    (ha : X.length ≤ a) (hb : X.length ≤ b) :
    pySlice (X ++ Z) a b = pySlice Z (a - X.length) (b - X.length) := by
  unfold pySlice
  rw [List.take_append_eq_append_take, List.take_of_length_le hb,
    drop_append_right _ _ _ ha]

theorem pySlice_prefix (X Z : List Nat) (n : Nat) (hn : X.length = n) :
    pySlice (X ++ Z) 0 n = X := by
  unfold pySlice
  rw [List.drop_zero, List.take_left' hn]

theorem readLE_packLE (w : Nat) (v : Int) :
    readLE (packLE w v) 0 w = (v % 2 ^ (8 * w)).toNat := by
  unfold packLE
  apply readLE_bytesOfNat
  have h1 : (0 : Int) < 2 ^ (8 * w) := by positivity
  have h3 : v % 2 ^ (8 * w) < 2 ^ (8 * w) := Int.emod_lt_of_pos v h1
  have hM : 0 < 2 ^ (8 * w) := pow_pos (by omega) _
  have e : ((2 : Int) ^ (8 * w)) = ((2 ^ (8 * w) : Nat) : Int) := by
    push_cast; ring
  rw [e] at h3
  omega

theorem portraitSeg_of_length {h : Hero} (hp : h.portrait.length = 1024) :
    portraitSeg h = h.portrait := by
  unfold portraitSeg
  rw [if_pos hp]

theorem readLE_cons_pos (a : Nat) (d : List Nat) (off w : Nat)
    (h : 0 < off) :
    readLE (a :: d) off w = readLE d (off - 1) w := by
  obtain ⟨k, rfl⟩ : ∃ k, off = k + 1 := ⟨off - 1, by omega⟩
  rw [readLE_cons, Nat.add_sub_cancel]

theorem drop_cons_pos (a : Nat) (d : List Nat) (n : Nat) (h : 0 < n) :
    (a :: d).drop n = d.drop (n - 1) := by
  obtain ⟨k, rfl⟩ : ∃ k, n = k + 1 := ⟨n - 1, by omega⟩
  simp

theorem pySlice_cons_pos (x : Nat) (d : List Nat) (a b : Nat) (ha : 0 < a)
    (hb : 0 < b) :
    pySlice (x :: d) a b = pySlice d (a - 1) (b - 1) := by
  obtain ⟨k, rfl⟩ : ∃ k, a = k + 1 := ⟨a - 1, by omega⟩
  obtain ⟨j, rfl⟩ : ∃ j, b = j + 1 := ⟨b - 1, by omega⟩
  unfold pySlice
  simp

set_option maxHeartbeats 8000000 in
/-- Decoding the normal-form buffer returns the hero unchanged, for any hero
shaped like a decoded record (names that fit and contain no null byte, a
1024-byte portrait, a tail of at least 591 bytes, and in-range packed
values). -/
theorem from_bytes_heroNF (h : Hero)
    (hn1 : h.name.length ≤ 16) (hz1 : ∀ x ∈ h.name, x ≠ 0)
    (hn2 : h.name2.length ≤ 16) (hz2 : ∀ x ∈ h.name2, x ≠ 0)
    (hp : h.portrait.length = 1024) (ht : 591 ≤ h.unknown_tail.length)
    (hsize : inSignedRange 16 h.size)
    (hexp : inSignedRange 32 h.exp) (hmoney : inSignedRange 32 h.money)
    (hvc : inSignedRange 16 h.vital_energy_current)
    (hvm : inSignedRange 16 h.vital_energy_max)
    (hac : inSignedRange 16 h.astral_energy_current)
    (ham : inSignedRange 16 h.astral_energy_max) :
    Hero.from_bytes (heroNF h) = .ok h := by
  have hN1 : (pyLjust h.name 16).length = 16 := pyLjust_length_le hn1
  have hN2 : (pyLjust h.name2 16).length = 16 := pyLjust_length_le hn2
  have hR : (591 : Nat) - h.unknown_tail.length = 0 := by omega
  have hlen := length_heroNF h hn1 hn2
  rw [Hero.from_bytes, if_neg (by rw [hlen]; unfold CHR_SIZE; omega)]
  rw [Except.ok.injEq]
  apply Hero.ext <;>
    simp only [heroNF, scalarSegs, traitSeg, unpack_trait, readI16, readI32,
      portraitSeg_of_length hp, hN1, hN2, hp, hR,
      List.getD_eq_getElem?_getD, List.cons_append, List.nil_append,
      List.append_nil, List.append_assoc,
      List.getElem?_append, List.getElem?_cons_succ, List.getElem?_cons_zero,
      Option.getD_some,
      List.length_append, List.length_cons, List.length_nil,
      List.length_replicate, length_packLE,
      readLE_append_right, readLE_append_left, readLE_packLE, readLE_cons_pos,
      drop_append_right, drop_cons_pos, List.drop_zero, List.replicate_zero,
      pySlice_append_right, pySlice_prefix, pySlice_cons_pos,
      takeTillNull_pyLjust hz1, takeTillNull_pyLjust hz2,
      toSigned_packmod16 h.size hsize, toSigned_packmod32 h.exp hexp,
      toSigned_packmod32 h.money hmoney,
      toSigned_packmod16 h.vital_energy_current hvc,
      toSigned_packmod16 h.vital_energy_max hvm,
      toSigned_packmod16 h.astral_energy_current hac,
      toSigned_packmod16 h.astral_energy_max ham,
      CharacterTrait.ext_iff, AttackValues.ext_iff, ParadeValues.ext_iff,
      Nat.reduceLeDiff, Nat.reduceLT, Nat.reduceSub, Nat.reduceAdd,
      eq_self_iff_true, and_self, and_true, true_and, ite_true, ite_false]

/-! ## Shape of a decoded hero -/

theorem from_bytes_ok (B : List Nat) (hl : 1754 ≤ B.length) :
    ∃ h, Hero.from_bytes B = .ok h := by
  unfold Hero.from_bytes
  rw [if_neg (by unfold CHR_SIZE; omega)]
  exact ⟨_, rfl⟩

/-- Everything `Hero.from_bytes` guarantees about its output: the encode
checks pass, the names fit and hold no null byte, the portrait is 1024 bytes
and the tail is everything past offset 1163. -/
theorem from_bytes_wf (B : List Nat) (h : Hero) (hb : isBytes B)
    (he : Hero.from_bytes B = .ok h) :
    h.encodeChecks ∧ h.name.length ≤ 16 ∧ (∀ x ∈ h.name, x ≠ 0) ∧
      h.name2.length ≤ 16 ∧ (∀ x ∈ h.name2, x ≠ 0) ∧
      h.portrait.length = 1024 ∧ h.unknown_tail.length = B.length - 1163 ∧
      1754 ≤ B.length := by
  unfold Hero.from_bytes at he
  split at he
  · simp at he
  · next hge =>
    rw [Except.ok.injEq] at he
    subst he
    have hlen : 1754 ≤ B.length := by unfold CHR_SIZE at hge; omega
    refine ⟨⟨isBytes_takeTillNull (isBytes_pySlice hb 0 16),
      isBytes_takeTillNull (isBytes_pySlice hb 16 32),
      isBytes_getD hb 32,
      isBytes_getD hb 33,
      isBytes_getD hb 34,
      inSignedRange_toSigned 16 _ (by norm_num) (readLE_lt B 35 2 hb),
      isBytes_getD hb 37,
      isBytes_getD hb 38,
      isBytes_getD hb 39,
      inSignedRange_toSigned 32 _ (by norm_num) (readLE_lt B 40 4 hb),
      inSignedRange_toSigned 32 _ (by norm_num) (readLE_lt B 44 4 hb),
      isBytes_getD hb 48,
      isBytes_getD hb 49,
      isBytes_getD hb 50,
      isBytes_getD hb 51,
      by
      intro t ht
      simp only [List.mem_cons, List.not_mem_nil, or_false] at ht
      rcases ht with rfl|rfl|rfl|rfl|rfl|rfl|rfl|rfl|rfl|rfl|rfl|rfl|rfl|rfl <;>
        exact ⟨isBytes_getD hb _, isBytes_getD hb _, isBytes_getD hb _⟩,
      inSignedRange_toSigned 16 _ (by norm_num) (readLE_lt B 94 2 hb),
      inSignedRange_toSigned 16 _ (by norm_num) (readLE_lt B 96 2 hb),
      inSignedRange_toSigned 16 _ (by norm_num) (readLE_lt B 98 2 hb),
      inSignedRange_toSigned 16 _ (by norm_num) (readLE_lt B 100 2 hb),
      isBytes_getD hb 102,
      isBytes_getD hb 103,
      ⟨isBytes_getD hb 104, isBytes_getD hb 105, isBytes_getD hb 106, isBytes_getD hb 107, isBytes_getD hb 108, isBytes_getD hb 109, isBytes_getD hb 110⟩,
      ⟨isBytes_getD hb 111, isBytes_getD hb 112, isBytes_getD hb 113, isBytes_getD hb 114, isBytes_getD hb 115, isBytes_getD hb 116, isBytes_getD hb 117⟩,
      isBytes_getD hb 118,
      isBytes_getD hb 119,
      isBytes_getD hb 120,
      isBytes_getD hb 121,
      isBytes_getD hb 122,
      isBytes_getD hb 123,
      isBytes_getD hb 124,
      isBytes_getD hb 125,
      isBytes_getD hb 126,
      isBytes_getD hb 127,
      isBytes_getD hb 128,
      isBytes_getD hb 129,
      isBytes_getD hb 130,
      isBytes_getD hb 131,
      isBytes_getD hb 132,
      isBytes_getD hb 133,
      isBytes_getD hb 134,
      isBytes_getD hb 135,
      isBytes_getD hb 136,
      isBytes_getD hb 137,
      isBytes_getD hb 138,
      fun _ => isBytes_pySlice hb 139 (139 + 1024),
      isBytes_drop hb (139 + 1024)⟩,
      ?_, takeTillNull_ne_zero, ?_, takeTillNull_ne_zero, ?_, ?_, hlen⟩
    · show (takeTillNull (pySlice B 0 16)).length ≤ 16
      have := length_takeTillNull_le (pySlice B 0 16)
      rw [length_pySlice B 0 16 (by omega)] at this
      omega
    · show (takeTillNull (pySlice B 16 32)).length ≤ 16
      have := length_takeTillNull_le (pySlice B 16 32)
      rw [length_pySlice B 16 32 (by omega)] at this
      omega
    · show (pySlice B 139 (139 + 1024)).length = 1024
      rw [length_pySlice B 139 (139 + 1024) (by omega)]
    · show (B.drop (139 + 1024)).length = B.length - 1163
      rw [List.length_drop]

/-! ## Reassembling a decoded record's encoding into the original buffer -/

theorem emod_toSigned (W n : Nat) (hn : n < 2 ^ W) :
    ((toSigned W n) % ((2 : Int) ^ W)).toNat = n := by
  have e : ((2 : Int) ^ W) = ((2 ^ W : Nat) : Int) := by push_cast; ring
  unfold toSigned
  split
  · rw [Int.emod_eq_of_lt (by omega) (by rw [e]; exact_mod_cast hn)]
    omega
  · rw [e]
    have e2 : ((n : Int) - (2 ^ W : Nat)) % ((2 ^ W : Nat) : Int) =
        (n : Int) % ((2 ^ W : Nat) : Int) := by
      conv_lhs =>
        rw [show ((n : Int) - (2 ^ W : Nat)) =
          (n : Int) + (-1) * ((2 ^ W : Nat) : Int) by ring]
      exact Int.add_mul_emod_self
    rw [e2, Int.emod_eq_of_lt (by omega) (by exact_mod_cast hn)]
    omega

theorem packLE_readLE (d : List Nat) (off w : Nat) (hb : isBytes d)
    (hw : off + w ≤ d.length) :
    packLE w (toSigned (8 * w) (readLE d off w)) = pySlice d off (off + w) := by
  unfold packLE
  rw [emod_toSigned _ _ (readLE_lt d off w hb), bytesOfNat_readLE d off w hb hw]

theorem pack_read16 (d : List Nat) (off : Nat) (hb : isBytes d)
    (hw : off + 2 ≤ d.length) :
    packLE 2 (readI16 d off) = pySlice d off (off + 2) := by
  have := packLE_readLE d off 2 hb hw
  norm_num at this
  exact this

theorem pack_read32 (d : List Nat) (off : Nat) (hb : isBytes d)
    (hw : off + 4 ≤ d.length) :
    packLE 4 (readI32 d off) = pySlice d off (off + 4) := by
  have := packLE_readLE d off 4 hb hw
  norm_num at this
  exact this

theorem cons_getD_drop (B : List Nat) (i j : Nat) (h1 : j = i + 1)
    (h2 : i < B.length) :
    B.getD i 0 :: B.drop j = B.drop i := by
  subst h1
  exact getD_cons_drop B i h2

theorem to_bytes_eq_heroNF (h : Hero) (hc : h.encodeChecks)
    (hn1 : h.name.length ≤ 16) (hn2 : h.name2.length ≤ 16) :
    Hero.to_bytes h = some (heroNF h) := by
  rw [Hero.to_bytes, if_pos hc, toBytesRaw_NF h hn1 hn2]

theorem from_bytes_heroNF_of_checks (h : Hero) (hc : h.encodeChecks)
    (hn1 : h.name.length ≤ 16) (hz1 : ∀ x ∈ h.name, x ≠ 0)
    (hn2 : h.name2.length ≤ 16) (hz2 : ∀ x ∈ h.name2, x ≠ 0)
    (hp : h.portrait.length = 1024) (ht : 591 ≤ h.unknown_tail.length) :
    Hero.from_bytes (heroNF h) = .ok h := by
  obtain ⟨_, _, _, _, _, hsize, _, _, _, hexp, hmoney, _, _, _, _, _,
    hvc, hvm, hac, ham, _⟩ := hc
  exact from_bytes_heroNF h hn1 hz1 hn2 hz2 hp ht hsize hexp hmoney
    hvc hvm hac ham

set_option maxHeartbeats 4000000 in
/-- Encoding a hero decoded from a 1754-byte record reproduces the record,
provided both 16-byte name windows carry only zeros after their first null
byte (that padding is the only information `from_bytes` discards). -/
theorem heroNF_eq_self (B : List Nat) (hl : B.length = 1754) (hb : isBytes B)
    (h : Hero) (he : Hero.from_bytes B = .ok h)
    (hpad1 : pyLjust (takeTillNull (pySlice B 0 16)) 16 = pySlice B 0 16)
    (hpad2 : pyLjust (takeTillNull (pySlice B 16 32)) 16 = pySlice B 16 32) :
    heroNF h = B := by
  unfold Hero.from_bytes at he
  rw [if_neg (by unfold CHR_SIZE; omega), Except.ok.injEq] at he
  subst he
  have hp : (pySlice B 139 (139 + 1024)).length = 1024 := by
    rw [length_pySlice B 139 (139 + 1024) (by omega)]
  have hR : (591 : Nat) - (B.drop (139 + 1024)).length = 0 := by
    rw [List.length_drop]; omega
  simp only [heroNF, scalarSegs, traitSeg, unpack_trait, portraitSeg, hp, hR,
    List.replicate_zero, List.append_nil, ite_true, eq_self_iff_true,
    pack_read16 B 35 hb (by omega), pack_read32 B 40 hb (by omega),
    pack_read32 B 44 hb (by omega), pack_read16 B 94 hb (by omega),
    pack_read16 B 96 hb (by omega), pack_read16 B 98 hb (by omega),
    pack_read16 B 100 hb (by omega),
    hpad1, hpad2, List.cons_append, List.nil_append, List.append_assoc,
    Nat.reduceAdd]
  simp only [pySlice_append_drop, cons_getD_drop, hl, Nat.reduceAdd,
    Nat.reduceLT, Nat.reduceLeDiff, eq_self_iff_true, List.cons_append,
    List.nil_append, List.append_assoc, List.drop_zero]


/-! ## Concrete fixtures -/

/-- An all-zero 1754-byte record. -/
def B0 : List Nat := List.replicate 1754 0

/-- A 1754-byte record whose name field is `[0, 1, 0, ...]`: a nonzero byte
sits after the name's first null byte. -/
def B1ce : List Nat := 0 :: 1 :: List.replicate 1752 0

theorem isBytes_replicate (n k : Nat) (h : k < 256) :
    isBytes (List.replicate n k) := by
  intro x hx
  rw [List.eq_of_mem_replicate hx]
  exact h

theorem isBytes_B0 : isBytes B0 := isBytes_replicate _ _ (by omega)

theorem length_B0 : B0.length = 1754 := by simp [B0]

theorem isBytes_B1ce : isBytes B1ce := by
  intro x hx
  rcases List.mem_cons.mp hx with rfl | hx
  · omega
  rcases List.mem_cons.mp hx with rfl | hx
  · omega
  · rw [List.eq_of_mem_replicate hx]
    omega

theorem length_B1ce : B1ce.length = 1754 := by simp [B1ce]

/-! ## Claim C1 -/

/-- C1 (counterexample): the hero round trip fails on a full 1754-byte record
that carries a nonzero byte after the first null of its name field —
`RecordCodec.decode` keeps only the bytes before the first null, and
re-encoding zero-fills the rest of the window. -/
theorem C1_counterexample :
    ∃ h, Hero.from_bytes B1ce = .ok h ∧ Hero.to_bytes h ≠ some B1ce := by
  obtain ⟨h, he⟩ := from_bytes_ok B1ce (by rw [length_B1ce])
  obtain ⟨hc, hn1, _, hn2, _, _, _, _⟩ :=
    from_bytes_wf B1ce h isBytes_B1ce he
  refine ⟨h, he, ?_⟩
  rw [to_bytes_eq_heroNF h hc hn1 hn2]
  unfold Hero.from_bytes at he
  rw [if_neg (by rw [length_B1ce]; unfold CHR_SIZE; omega),
    Except.ok.injEq] at he
  subst he
  intro heq
  rw [Option.some.injEq] at heq
  have hbyte := congrArg (fun l => l.getD 1 0) heq
  have hname : takeTillNull (pySlice B1ce 0 16) = [] := by decide
  simp only [heroNF, hname] at hbyte
  rw [List.getD_append _ _ _ _ (by decide),
    show (pyLjust [] 16).getD 1 0 = 0 by decide,
    show B1ce.getD 1 0 = 1 by decide] at hbyte
  exact absurd hbyte (by decide)

/-- C1 (amended): the hero round trip holds for every 1754-byte buffer whose
two 16-byte name windows carry only zero bytes after their first null byte;
`encode (decode B) = B` then holds byte for byte. -/
theorem C1_hero_round_trip (B : List Nat) (hl : B.length = 1754)
    (hb : isBytes B)
    (hpad1 : pyLjust (takeTillNull (pySlice B 0 16)) 16 = pySlice B 0 16)
    (hpad2 : pyLjust (takeTillNull (pySlice B 16 32)) 16 = pySlice B 16 32) :
    ∃ h, Hero.from_bytes B = .ok h ∧ Hero.to_bytes h = some B := by
  obtain ⟨h, he⟩ := from_bytes_ok B (by omega)
  obtain ⟨hc, hn1, _, hn2, _, _, _, _⟩ := from_bytes_wf B h hb he
  refine ⟨h, he, ?_⟩
  rw [to_bytes_eq_heroNF h hc hn1 hn2,
    heroNF_eq_self B hl hb h he hpad1 hpad2]

/-- C1 (witness): the amended round trip at the all-zero record. -/
theorem C1_hero_round_trip_witness :
    B0.length = 1754 ∧ isBytes B0 ∧
      pyLjust (takeTillNull (pySlice B0 0 16)) 16 = pySlice B0 0 16 ∧
      pyLjust (takeTillNull (pySlice B0 16 32)) 16 = pySlice B0 16 32 ∧
      ∃ h, Hero.from_bytes B0 = .ok h ∧ Hero.to_bytes h = some B0 :=
  ⟨length_B0, isBytes_B0, by decide, by decide,
    C1_hero_round_trip B0 length_B0 isBytes_B0 (by decide) (by decide)⟩

/-! ## Claim C2 -/

/-- C2: decode after encode is the identity on decoded heroes — for any hero
obtained from a prior `Hero.from_bytes` on a byte buffer, `Hero.to_bytes`
succeeds and decoding its output returns the hero unchanged in every field. -/
theorem C2_decode_encode_id (B : List Nat) (hb : isBytes B) (h : Hero)
    (he : Hero.from_bytes B = .ok h) :
    ∃ out, Hero.to_bytes h = some out ∧ Hero.from_bytes out = .ok h := by
  obtain ⟨hc, hn1, hz1, hn2, hz2, hp, htl, hBlen⟩ := from_bytes_wf B h hb he
  exact ⟨heroNF h, to_bytes_eq_heroNF h hc hn1 hn2,
    from_bytes_heroNF_of_checks h hc hn1 hz1 hn2 hz2 hp (by omega)⟩

/-- C2 (witness): instantiated at the all-zero record. -/
theorem C2_decode_encode_id_witness :
    isBytes B0 ∧
      ∃ h out, Hero.from_bytes B0 = .ok h ∧ Hero.to_bytes h = some out ∧
        Hero.from_bytes out = .ok h := by
  obtain ⟨h, he⟩ := from_bytes_ok B0 (by rw [length_B0])
  obtain ⟨out, h1, h2⟩ := C2_decode_encode_id B0 isBytes_B0 h he
  exact ⟨isBytes_B0, h, out, he, h1, h2⟩

/-! ## Claim C8 -/

/-- The 40 bytes of an encoded record before the `exp` field. -/
def nfPre (h : Hero) : List Nat :=
  pyLjust h.name 16 ++ (pyLjust h.name2 16 ++
    ([h.slots_used, h.typus, h.gender] ++ (packLE 2 h.size ++
      [h.weight, h.god, h.level])))

/-- The bytes of an encoded record after the `exp` field. -/
def nfPost (h : Hero) : List Nat :=
  packLE 4 h.money ++
  ([h.rs_bonus1, h.rs_bonus2, h.rs_handycap, h.remaining_bp] ++
  (traitSeg h.courage ++
  (traitSeg h.intelligence ++
  (traitSeg h.charisma ++
  (traitSeg h.dexterity ++
  (traitSeg h.agility ++
  (traitSeg h.intuition ++
  (traitSeg h.strength ++
  (traitSeg h.superstition ++
  (traitSeg h.vertigo ++
  (traitSeg h.claustrophobia ++
  (traitSeg h.greed ++
  (traitSeg h.necrophobia ++
  (traitSeg h.curiosity ++
  (traitSeg h.temper ++
  (packLE 2 h.vital_energy_current ++
  (packLE 2 h.vital_energy_max ++
  (packLE 2 h.astral_energy_current ++
  (packLE 2 h.astral_energy_max ++
  ([h.magic_resistance, h.basis_attack_parade] ++
  ([h.att_vals.att1, h.att_vals.att2, h.att_vals.att3, h.att_vals.att4,
    h.att_vals.att5, h.att_vals.att6, h.att_vals.att7] ++
  ([h.par_vals.par1, h.par_vals.par2, h.par_vals.par3, h.par_vals.par4,
    h.par_vals.par5, h.par_vals.par6, h.par_vals.par7] ++
  ([h.att_bon_weapon, h.par_bon_weapon, h.weapon_type, h.curr_attack_modifier, h.perm_vit_energ_loss,
    h.unknown1, h.unknown2, h.unknown3, h.unknown4, h.hunger, h.thirst, h.unknown5, h.view_direction,
    h.num_left_actions_per_fight_round, h.unknown6, h.unknown7, h.fight_id_last_enemy, h.idx_heroes_group, h.unknown8, h.unknown9, h.pos_in_heroes_group] ++
  (portraitSeg h ++
  (h.unknown_tail ++
  (List.replicate (591 - h.unknown_tail.length) 0))))))))))))))))))))))))))

theorem heroNF_split (h : Hero) :
    heroNF h = nfPre h ++ (packLE 4 h.exp ++ nfPost h) := by
  simp only [heroNF, scalarSegs, nfPre, nfPost, List.append_assoc]

theorem nfPre_exp (h : Hero) (v : Int) :
    nfPre { h with exp := v } = nfPre h := rfl

theorem nfPost_exp (h : Hero) (v : Int) :
    nfPost { h with exp := v } = nfPost h := rfl

theorem length_nfPre (h : Hero) (hn1 : h.name.length ≤ 16)
    (hn2 : h.name2.length ≤ 16) : (nfPre h).length = 40 := by
  simp [nfPre, pyLjust_length_le hn1, pyLjust_length_le hn2]

theorem encodeChecks_set_exp (h : Hero) (hc : h.encodeChecks) (v : Int)
    (her : inSignedRange 32 v) :
    Hero.encodeChecks { h with exp := v } := by
  obtain ⟨c1, c2, c3, c4, c5, c6, c7, c8, c9, _, c11, c12, c13, c14, c15, c16, c17, c18, c19, c20, c21, c22, c23, c24, c25, c26, c27, c28, c29, c30, c31, c32, c33, c34, c35, c36, c37, c38, c39, c40, c41, c42, c43, c44, c45, c46, c47⟩ := hc
  exact ⟨c1, c2, c3, c4, c5, c6, c7, c8, c9, her, c11, c12, c13, c14, c15, c16, c17, c18, c19, c20, c21, c22, c23, c24, c25, c26, c27, c28, c29, c30, c31, c32, c33, c34, c35, c36, c37, c38, c39, c40, c41, c42, c43, c44, c45, c46, c47⟩

/-- Reads of the four `exp` bytes determine `readI32` at offset 40. -/
theorem readI32_congr (d d' : List Nat)
    (h : ∀ j, 40 ≤ j → j ≤ 43 → d.getD j 0 = d'.getD j 0) :
    readI32 d 40 = readI32 d' 40 := by
  simp only [readI32, readLE, Nat.reduceAdd]
  rw [h 40 (by omega) (by omega), h 41 (by omega) (by omega),
    h 42 (by omega) (by omega), h 43 (by omega) (by omega)]

/-- A 1754-byte record with a stray nonzero byte at offset 17 (inside the
second name window, after that window's first null byte). -/
def B8ce : List Nat := List.replicate 17 0 ++ 5 :: List.replicate 1736 0

theorem length_B8ce : B8ce.length = 1754 := by simp [B8ce]

theorem isBytes_B8ce : isBytes B8ce := by
  intro x hx
  rcases List.mem_append.mp hx with hx | hx
  · rw [List.eq_of_mem_replicate hx]; omega
  rcases List.mem_cons.mp hx with rfl | hx
  · omega
  · rw [List.eq_of_mem_replicate hx]; omega

/-- C8 (counterexample): on a record whose second name window carries a
nonzero padding byte at offset 17, changing `exp` and re-encoding also
changes byte 17 (the re-encode zero-fills name padding), so the difference is
not confined to bytes 40–43. -/
theorem C8_counterexample :
    ∃ h, Hero.from_bytes B8ce = .ok h ∧ (1 : Int) ≠ h.exp ∧
      ∃ out, Hero.to_bytes { h with exp := 1 } = some out ∧
        out.getD 17 0 ≠ B8ce.getD 17 0 := by
  obtain ⟨h, he⟩ := from_bytes_ok B8ce (by rw [length_B8ce])
  obtain ⟨hc, hn1, _, hn2, _, _, _, _⟩ :=
    from_bytes_wf B8ce h isBytes_B8ce he
  have hc' := encodeChecks_set_exp h hc 1 (by decide)
  have he2 := he
  unfold Hero.from_bytes at he2
  rw [if_neg (by rw [length_B8ce]; unfold CHR_SIZE; omega),
    Except.ok.injEq] at he2
  subst he2
  refine ⟨_, he, by decide, heroNF _, to_bytes_eq_heroNF _ hc' hn1 hn2, ?_⟩
  have hname2 : takeTillNull (pySlice B8ce 16 32) = [] := by decide
  simp only [heroNF, hname2]
  rw [List.getD_append_right _ _ _ _ (by rw [pyLjust_length_le hn1]; omega)]
  simp only [pyLjust_length_le hn1, Nat.reduceSub]
  rw [List.getD_append _ _ _ _ (by decide)]
  decide

/-- C8 (amended): on a 1754-byte record whose name windows hold only zeros
after their first null byte, mutating only `exp` (to a different in-range
value) and re-encoding yields a full 1754-byte buffer that agrees with the
original outside bytes 40–43 and differs somewhere inside bytes 40–43. -/
theorem C8_field_isolation (B : List Nat) (hl : B.length = 1754)
    (hb : isBytes B)
    (hpad1 : pyLjust (takeTillNull (pySlice B 0 16)) 16 = pySlice B 0 16)
    (hpad2 : pyLjust (takeTillNull (pySlice B 16 32)) 16 = pySlice B 16 32)
    (h : Hero) (he : Hero.from_bytes B = .ok h)
    (e' : Int) (her : inSignedRange 32 e') (hne : e' ≠ h.exp) :
    ∃ out, Hero.to_bytes { h with exp := e' } = some out ∧
      out.length = 1754 ∧
      (∀ j, j < 40 ∨ 43 < j → out.getD j 0 = B.getD j 0) ∧
      ¬ (∀ j, 40 ≤ j → j ≤ 43 → out.getD j 0 = B.getD j 0) := by
  obtain ⟨hc, hn1, hz1, hn2, hz2, hp, htl, _⟩ := from_bytes_wf B h hb he
  have hc' := encodeChecks_set_exp h hc e' her
  have hBeq : heroNF h = B := heroNF_eq_self B hl hb h he hpad1 hpad2
  have hnfB : nfPre h ++ (packLE 4 h.exp ++ nfPost h) = B := by
    rw [← heroNF_split, hBeq]
  have hpre : (nfPre h).length = 40 := length_nfPre h hn1 hn2
  have ht5 : h.unknown_tail.length = 591 := by omega
  refine ⟨heroNF { h with exp := e' },
    to_bytes_eq_heroNF _ hc' hn1 hn2, ?_, ?_, ?_⟩
  · rw [length_heroNF { h with exp := e' }
        (show ({ h with exp := e' } : Hero).name.length ≤ 16 from hn1)
        (show ({ h with exp := e' } : Hero).name2.length ≤ 16 from hn2),
      show ({ h with exp := e' } : Hero).unknown_tail = h.unknown_tail
        from rfl, ht5]
    simp
  · intro j hj
    rw [heroNF_split, nfPre_exp, nfPost_exp,
      show ({ h with exp := e' } : Hero).exp = e' from rfl, ← hnfB]
    rcases hj with hj | hj
    · rw [List.getD_append (nfPre h) (packLE 4 e' ++ nfPost h) 0 j
          (by rw [hpre]; omega),
        List.getD_append (nfPre h) (packLE 4 h.exp ++ nfPost h) 0 j
          (by rw [hpre]; omega)]
    · rw [List.getD_append_right (nfPre h) (packLE 4 e' ++ nfPost h) 0 j
        (by rw [hpre]; omega)]
      rw [List.getD_append_right (nfPre h) (packLE 4 h.exp ++ nfPost h) 0 j
        (by rw [hpre]; omega)]
      rw [hpre]
      rw [List.getD_append_right (packLE 4 e') (nfPost h) 0 (j - 40)
        (by rw [length_packLE]; omega)]
      rw [List.getD_append_right (packLE 4 h.exp) (nfPost h) 0 (j - 40)
        (by rw [length_packLE]; omega)]
      rw [length_packLE]
      rw [length_packLE]
  · intro hall
    have h1 := readI32_congr _ _ hall
    have h2 : readI32 (heroNF { h with exp := e' }) 40 = e' := by
      rw [heroNF_split, nfPre_exp, nfPost_exp,
        show ({ h with exp := e' } : Hero).exp = e' from rfl]
      have hx := readI32_packI32 e' her (nfPost h) (nfPre h)
      unfold packI32 at hx
      rw [hpre] at hx
      exact hx
    have her2 : inSignedRange 32 h.exp := by
      obtain ⟨_, _, _, _, _, _, _, _, _, hx, _⟩ := hc
      exact hx
    have h3 : readI32 B 40 = h.exp := by
      rw [← hnfB]
      have hx := readI32_packI32 h.exp her2 (nfPost h) (nfPre h)
      unfold packI32 at hx
      rw [hpre] at hx
      exact hx
    exact hne (by rw [← h2, h1, h3])

/-- C8 (witness): the amended statement at the all-zero record, changing
`exp` from 0 to 1. -/
theorem C8_field_isolation_witness :
    B0.length = 1754 ∧ isBytes B0 ∧ inSignedRange 32 1 ∧
      ∃ h, Hero.from_bytes B0 = .ok h ∧ (1 : Int) ≠ h.exp ∧
        ∃ out, Hero.to_bytes { h with exp := (1 : Int) } = some out ∧
          out.length = 1754 ∧
          (∀ j, j < 40 ∨ 43 < j → out.getD j 0 = B0.getD j 0) ∧
          ¬ (∀ j, 40 ≤ j → j ≤ 43 → out.getD j 0 = B0.getD j 0) := by
  obtain ⟨h, he⟩ := from_bytes_ok B0 (by rw [length_B0])
  have hne : (1 : Int) ≠ h.exp := by
    have he2 := he
    unfold Hero.from_bytes at he2
    rw [if_neg (by rw [length_B0]; unfold CHR_SIZE; omega),
      Except.ok.injEq] at he2
    rw [← he2]
    decide
  exact ⟨length_B0, isBytes_B0, by decide, h, he, hne,
    C8_field_isolation B0 length_B0 isBytes_B0 (by decide) (by decide) h he 1
      (by decide) hne⟩

/-! ## Claims C3, C4, C5 -/

/-- The hero decoded from an all-zero 1754-byte record. -/
def zeroHero : Hero :=
  { name := [], name2 := [], slots_used := 0, typus := 0, gender := 0,
    size := 0, weight := 0, god := 0, level := 0, exp := 0, money := 0,
    rs_bonus1 := 0, rs_bonus2 := 0, rs_handycap := 0, remaining_bp := 0,
    courage := ⟨0, 0, 0⟩, intelligence := ⟨0, 0, 0⟩, charisma := ⟨0, 0, 0⟩,
    dexterity := ⟨0, 0, 0⟩, agility := ⟨0, 0, 0⟩, intuition := ⟨0, 0, 0⟩,
    strength := ⟨0, 0, 0⟩, superstition := ⟨0, 0, 0⟩, vertigo := ⟨0, 0, 0⟩,
    claustrophobia := ⟨0, 0, 0⟩, greed := ⟨0, 0, 0⟩, necrophobia := ⟨0, 0, 0⟩,
    curiosity := ⟨0, 0, 0⟩, temper := ⟨0, 0, 0⟩,
    vital_energy_current := 0, vital_energy_max := 0,
    astral_energy_current := 0, astral_energy_max := 0,
    magic_resistance := 0, basis_attack_parade := 0,
    att_vals := ⟨0, 0, 0, 0, 0, 0, 0⟩, par_vals := ⟨0, 0, 0, 0, 0, 0, 0⟩,
    att_bon_weapon := 0, par_bon_weapon := 0, weapon_type := 0,
    curr_attack_modifier := 0, perm_vit_energ_loss := 0,
    unknown1 := 0, unknown2 := 0, unknown3 := 0, unknown4 := 0,
    hunger := 0, thirst := 0, unknown5 := 0, view_direction := 0,
    num_left_actions_per_fight_round := 0, unknown6 := 0, unknown7 := 0,
    fight_id_last_enemy := 0, idx_heroes_group := 0, unknown8 := 0,
    unknown9 := 0, pos_in_heroes_group := 0,
    portrait := List.replicate 1024 0, unknown_tail := List.replicate 591 0 }

/-- A hero with an empty portrait blob. -/
def h3ce : Hero := { zeroHero with portrait := [] }

/-- A hero whose name is 17 characters long. -/
def h4ce : Hero := { zeroHero with name := List.replicate 17 65 }

/-- A hero with an empty unknown tail. -/
def h5ce : Hero := { zeroHero with unknown_tail := [] }

theorem encodeChecks_h3ce : Hero.encodeChecks h3ce :=
  ⟨by decide,
    by decide,
    of_decide_eq_true rfl,
    by decide,
    of_decide_eq_true rfl,
    by decide,
    of_decide_eq_true rfl,
    by decide,
    of_decide_eq_true rfl,
    by decide,
    of_decide_eq_true rfl,
    by decide,
    of_decide_eq_true rfl,
    by decide,
    of_decide_eq_true rfl,
    by decide,
    of_decide_eq_true rfl,
    by decide,
    of_decide_eq_true rfl,
    by decide,
    of_decide_eq_true rfl,
    by decide,
    of_decide_eq_true rfl,
    by decide,
    of_decide_eq_true rfl,
    by decide,
    of_decide_eq_true rfl,
    by decide,
    of_decide_eq_true rfl,
    by decide,
    of_decide_eq_true rfl,
    by decide,
    of_decide_eq_true rfl,
    by decide,
    of_decide_eq_true rfl,
    by decide,
    of_decide_eq_true rfl,
    by decide,
    of_decide_eq_true rfl,
    by decide,
    of_decide_eq_true rfl,
    by decide,
    of_decide_eq_true rfl,
    by decide,
    of_decide_eq_true rfl,
    fun hx => absurd hx (by decide),
    isBytes_replicate _ _ (by omega)⟩

theorem encodeChecks_h4ce : Hero.encodeChecks h4ce :=
  ⟨by decide,
    by decide,
    of_decide_eq_true rfl,
    by decide,
    of_decide_eq_true rfl,
    by decide,
    of_decide_eq_true rfl,
    by decide,
    of_decide_eq_true rfl,
    by decide,
    of_decide_eq_true rfl,
    by decide,
    of_decide_eq_true rfl,
    by decide,
    of_decide_eq_true rfl,
    by decide,
    of_decide_eq_true rfl,
    by decide,
    of_decide_eq_true rfl,
    by decide,
    of_decide_eq_true rfl,
    by decide,
    of_decide_eq_true rfl,
    by decide,
    of_decide_eq_true rfl,
    by decide,
    of_decide_eq_true rfl,
    by decide,
    of_decide_eq_true rfl,
    by decide,
    of_decide_eq_true rfl,
    by decide,
    of_decide_eq_true rfl,
    by decide,
    of_decide_eq_true rfl,
    by decide,
    of_decide_eq_true rfl,
    by decide,
    of_decide_eq_true rfl,
    by decide,
    of_decide_eq_true rfl,
    by decide,
    of_decide_eq_true rfl,
    by decide,
    of_decide_eq_true rfl,
    fun _ => isBytes_replicate _ _ (by omega),
    isBytes_replicate _ _ (by omega)⟩

theorem encodeChecks_h5ce : Hero.encodeChecks h5ce :=
  ⟨by decide,
    by decide,
    of_decide_eq_true rfl,
    by decide,
    of_decide_eq_true rfl,
    by decide,
    of_decide_eq_true rfl,
    by decide,
    of_decide_eq_true rfl,
    by decide,
    of_decide_eq_true rfl,
    by decide,
    of_decide_eq_true rfl,
    by decide,
    of_decide_eq_true rfl,
    by decide,
    of_decide_eq_true rfl,
    by decide,
    of_decide_eq_true rfl,
    by decide,
    of_decide_eq_true rfl,
    by decide,
    of_decide_eq_true rfl,
    by decide,
    of_decide_eq_true rfl,
    by decide,
    of_decide_eq_true rfl,
    by decide,
    of_decide_eq_true rfl,
    by decide,
    of_decide_eq_true rfl,
    by decide,
    of_decide_eq_true rfl,
    by decide,
    of_decide_eq_true rfl,
    by decide,
    of_decide_eq_true rfl,
    by decide,
    of_decide_eq_true rfl,
    by decide,
    of_decide_eq_true rfl,
    by decide,
    of_decide_eq_true rfl,
    by decide,
    of_decide_eq_true rfl,
    fun _ => isBytes_replicate _ _ (by omega),
    by decide⟩

theorem getD_replicate_zero (n i : Nat) :
    (List.replicate n (0 : Nat)).getD i 0 = 0 := by
  induction n generalizing i with
  | zero => rfl
  | succ n ih => cases i <;> simp [List.replicate, List.getD, ih]

/-- Byte reads of `heroNF` inside the portrait window hit `portraitSeg`. -/
theorem getD_heroNF_portrait (h : Hero) (hn1 : h.name.length ≤ 16)
    (hn2 : h.name2.length ≤ 16) (j : Nat) (h1 : 139 ≤ j) (h2 : j < 1163) :
    (heroNF h).getD j 0 = (portraitSeg h).getD (j - 139) 0 := by
  have hN1 : (pyLjust h.name 16).length = 16 := pyLjust_length_le hn1
  have hN2 : (pyLjust h.name2 16).length = 16 := pyLjust_length_le hn2
  unfold heroNF
  rw [List.getD_append_right (pyLjust h.name 16) _ 0 j (by rw [hN1]; omega),
    hN1,
    List.getD_append_right (pyLjust h.name2 16) _ 0 (j - 16)
      (by rw [hN2]; omega),
    hN2,
    List.getD_append_right (scalarSegs h) _ 0 (j - 16 - 16)
      (by rw [length_scalarSegs]; omega),
    length_scalarSegs,
    List.getD_append (portraitSeg h) _ 0 (j - 16 - 16 - 107)
      (by rw [length_portraitSeg]; omega)]
  have hidx : j - 16 - 16 - 107 = j - 139 := by omega
  rw [hidx]

set_option maxRecDepth 40000 in
/-- C3 (counterexample): a hero whose portrait is not 1024 bytes long is
encoded without any error — no `InvalidPortraitSize` rejection exists in the
code. -/
theorem C3_counterexample :
    h3ce.portrait.length ≠ 1024 ∧ (Hero.to_bytes h3ce).isSome = true := by
  refine ⟨by decide, ?_⟩
  rw [Hero.to_bytes, if_pos encodeChecks_h3ce]
  rfl

/-- C3 (amended): encoding a hero whose portrait is not exactly 1024 bytes
does not fail; the encoder silently skips the write and the portrait region
(bytes 139–1162) of the output stays zero-filled. -/
theorem C3_portrait_zero_fill (h : Hero) (hp : h.portrait.length ≠ 1024)
    (hn1 : h.name.length ≤ 16) (hn2 : h.name2.length ≤ 16)
    (hc : h.encodeChecks) :
    ∃ out, Hero.to_bytes h = some out ∧
      ∀ j, 139 ≤ j → j < 1163 → out.getD j 0 = 0 := by
  refine ⟨heroNF h, to_bytes_eq_heroNF h hc hn1 hn2, ?_⟩
  intro j h1 h2
  rw [getD_heroNF_portrait h hn1 hn2 j h1 h2]
  unfold portraitSeg
  rw [if_neg hp]
  exact getD_replicate_zero _ _

set_option maxRecDepth 40000 in
/-- C3 (witness): the amended statement at a hero with an empty portrait. -/
theorem C3_portrait_zero_fill_witness :
    h3ce.portrait.length ≠ 1024 ∧ h3ce.name.length ≤ 16 ∧
      h3ce.name2.length ≤ 16 ∧ h3ce.encodeChecks ∧
      ∃ out, Hero.to_bytes h3ce = some out ∧
        ∀ j, 139 ≤ j → j < 1163 → out.getD j 0 = 0 :=
  ⟨by decide, by decide, by decide, encodeChecks_h3ce,
    C3_portrait_zero_fill h3ce (by decide) (by decide) (by decide)
      encodeChecks_h3ce⟩

set_option maxRecDepth 40000 in
/-- C4 (counterexample): a hero whose name needs 17 bytes is encoded without
any error — no `FieldOverflow` rejection exists in the code. -/
theorem C4_counterexample :
    16 < h4ce.name.length ∧ (Hero.to_bytes h4ce).isSome = true := by
  refine ⟨by decide, ?_⟩
  rw [Hero.to_bytes, if_pos encodeChecks_h4ce]
  rfl

/-- C4 (amended): encoding a hero whose name exceeds 16 bytes does not fail;
the mismatched slice assignment grows the buffer, so the encoder silently
emits a malformed record of `1738 + len(name)` bytes instead of 1754. -/
theorem C4_name_overflow_grows (h : Hero) (hn1 : 16 < h.name.length)
    (hn2 : h.name2.length ≤ 16) (ht : h.unknown_tail.length ≤ 591)
    (hc : h.encodeChecks) :
    ∃ out, Hero.to_bytes h = some out ∧
      out.length = 1738 + h.name.length ∧ 1754 < out.length := by
  have e1 : (writeNames h (List.replicate CHR_SIZE 0)).length
      = h.name.length + 1738 := by
    rw [length_writeNames h _ (by simp [CHR_SIZE])]
    simp only [length_pyLjust, List.length_replicate, CHR_SIZE]
    omega
  have e2 : (writeScalars h
      (writeNames h (List.replicate CHR_SIZE 0))).length
      = h.name.length + 1738 :=
    (length_writeScalars h _ (by rw [e1]; omega)).trans e1
  have e3 : (writePortrait h (writeScalars h
      (writeNames h (List.replicate CHR_SIZE 0)))).length
      = h.name.length + 1738 :=
    (length_writePortrait h _ (by rw [e2]; omega)).trans e2
  have e4 : (Hero.toBytesRaw h).length
      = max (h.name.length + 1738) (1163 + h.unknown_tail.length) := by
    unfold Hero.toBytesRaw
    rw [length_writeTail h _ (by rw [e3]; omega), e3]
  refine ⟨h.toBytesRaw, by rw [Hero.to_bytes, if_pos hc], ?_, ?_⟩
  · rw [e4]; omega
  · rw [e4]; omega

set_option maxRecDepth 40000 in
/-- C4 (witness): the amended statement at a hero with a 17-byte name. -/
theorem C4_name_overflow_grows_witness :
    16 < h4ce.name.length ∧ h4ce.name2.length ≤ 16 ∧
      h4ce.unknown_tail.length ≤ 591 ∧ h4ce.encodeChecks ∧
      ∃ out, Hero.to_bytes h4ce = some out ∧
        out.length = 1738 + h4ce.name.length ∧ 1754 < out.length :=
  ⟨by decide, by decide, by simp [h4ce, zeroHero], encodeChecks_h4ce,
    C4_name_overflow_grows h4ce (by decide) (by decide)
      (by simp [h4ce, zeroHero]) encodeChecks_h4ce⟩

set_option maxRecDepth 40000 in
/-- C5 (counterexample): a hero whose unknown tail is not 591 bytes long is
encoded without any error — no `FieldOverflow` rejection exists in the
code. -/
theorem C5_counterexample :
    h5ce.unknown_tail.length ≠ 591 ∧ (Hero.to_bytes h5ce).isSome = true := by
  refine ⟨by decide, ?_⟩
  rw [Hero.to_bytes, if_pos encodeChecks_h5ce]
  rfl

/-- C5 (amended): encoding never fails on the tail's length; whatever its
length, `unknown_tail` is written back verbatim at offset 1163 (the buffer is
zero-padded to 1754 bytes when the tail is shorter than 591 and grows to
`1163 + len(tail)` when longer). -/
theorem C5_tail_verbatim (h : Hero) (hn1 : h.name.length ≤ 16)
    (hn2 : h.name2.length ≤ 16) (hc : h.encodeChecks) :
    ∃ out, Hero.to_bytes h = some out ∧
      pySlice out 1163 (1163 + h.unknown_tail.length) = h.unknown_tail ∧
      out.length = max 1754 (1163 + h.unknown_tail.length) := by
  refine ⟨heroNF h, to_bytes_eq_heroNF h hc hn1 hn2, ?_, ?_⟩
  · have hsplit : heroNF h =
        (pyLjust h.name 16 ++ (pyLjust h.name2 16 ++
          (scalarSegs h ++ portraitSeg h))) ++
        (h.unknown_tail ++
          List.replicate (591 - h.unknown_tail.length) 0) := by
      simp [heroNF, List.append_assoc]
    have hX : (pyLjust h.name 16 ++ (pyLjust h.name2 16 ++
        (scalarSegs h ++ portraitSeg h))).length = 1163 := by
      simp [pyLjust_length_le hn1, pyLjust_length_le hn2, length_scalarSegs]
    rw [hsplit,
      pySlice_append_right _ _ 1163 (1163 + h.unknown_tail.length)
        (by rw [hX]) (by rw [hX]; omega), hX]
    simp only [Nat.sub_self, Nat.add_sub_cancel_left]
    exact pySlice_prefix _ _ _ rfl
  · rw [length_heroNF h hn1 hn2]
    omega

/-- C5 (witness): the amended statement at a hero with an empty tail. -/
theorem C5_tail_verbatim_witness :
    h5ce.name.length ≤ 16 ∧ h5ce.name2.length ≤ 16 ∧ h5ce.encodeChecks ∧
      ∃ out, Hero.to_bytes h5ce = some out ∧
        pySlice out 1163 (1163 + h5ce.unknown_tail.length) =
          h5ce.unknown_tail ∧
        out.length = max 1754 (1163 + h5ce.unknown_tail.length) :=
  ⟨by decide, by decide, encodeChecks_h5ce,
    C5_tail_verbatim h5ce (by decide) (by decide) encodeChecks_h5ce⟩

/-! ## Container-level machinery -/

theorem pyIdx_of_nonneg_le (len : Nat) (x : Int) (h0 : 0 ≤ x)
    (hl : x ≤ (len : Int)) : pyIdx len x = x.toNat := by
  unfold pyIdx
  rw [if_neg (by omega)]
  omega

theorem length_pySliceI (d : List Nat) (a b : Int) (h0 : 0 ≤ a)
    (hab : a ≤ b) (hbl : b ≤ (d.length : Int)) :
    (pySliceI d a b).length = (b - a).toNat := by
  unfold pySliceI
  rw [pyIdx_of_nonneg_le _ _ h0 (le_trans hab hbl),
    pyIdx_of_nonneg_le _ _ (le_trans h0 hab) hbl]
  simp only [List.length_drop, List.length_take]
  omega

theorem isBytes_pySliceI {B : List Nat} (hB : isBytes B) (a b : Int) :
    isBytes (pySliceI B a b) := isBytes_drop (isBytes_take hB _) _

theorem length_heroWindow (data : List Nat) (off : Int) (i : Nat)
    (h0 : 0 ≤ off)
    (hi : off + ((i : Int) + 1) * 1754 ≤ (data.length : Int)) :
    (heroWindow data off i).length = 1754 := by
  unfold heroWindow CHR_SIZE
  rw [length_pySliceI]
  · push_cast
    omega
  · push_cast
    omega
  · push_cast
    omega
  · push_cast
    omega

theorem length_heroWindow_le (data : List Nat) (off : Int) (i : Nat) :
    (heroWindow data off i).length ≤ 1754 := by
  unfold heroWindow pySliceI pyIdx CHR_SIZE
  simp only [List.length_drop, List.length_take]
  split_ifs <;> push_cast <;> omega

theorem exc_ok_bind {e a b : Type} (x : a) (f : a → Except e b) :
    (Except.ok x >>= f : Except e b) = f x := rfl

theorem exc_error_bind {e a b : Type} (err : e) (f : a → Except e b) :
    (Except.error err >>= f : Except e b) = Except.error err := rfl

theorem exc_map_ok {e a b : Type} (f : a → b) (x : a) :
    (f <$> (Except.ok x : Except e a) : Except e b) = Except.ok (f x) := rfl

theorem exc_map_error {e a b : Type} (f : a → b) (err : e) :
    (f <$> (Except.error err : Except e a) : Except e b) =
      Except.error err := rfl

theorem exc_pure {e a : Type} (x : a) :
    (pure x : Except e a) = Except.ok x := rfl

theorem opt_some_bind {a b : Type} (x : a) (f : a → Option b) :
    (some x >>= f : Option b) = f x := rfl

theorem opt_map_some {a b : Type} (f : a → b) (x : a) :
    (f <$> (some x : Option a) : Option b) = some (f x) := rfl

/-- What a successful record decode forces about input and output, with no
assumption on the bytes. -/
theorem from_bytes_shape (B : List Nat) (h : Hero)
    (he : Hero.from_bytes B = .ok h) :
    1754 ≤ B.length ∧ h.portrait.length = 1024 ∧
      h.unknown_tail.length = B.length - 1163 := by
  unfold Hero.from_bytes at he
  split at he
  · exact absurd he (by simp)
  · rename_i hlen
    have hl : 1754 ≤ B.length := by unfold CHR_SIZE at hlen; omega
    simp only [Except.ok.injEq] at he
    subst he
    refine ⟨hl, ?_, ?_⟩
    · simp [pySlice]
      omega
    · simp

theorem decodeWindows_ok (data : List Nat) (off : Int) :
    ∀ idxs : List Nat,
      (∀ i ∈ idxs, 1754 ≤ (heroWindow data off i).length) →
      ∃ hs, decodeWindows data off idxs = .ok hs ∧
        hs.length = idxs.length ∧
        ∀ h ∈ hs, ∃ i ∈ idxs,
          Hero.from_bytes (heroWindow data off i) = .ok h
  | [], _ => ⟨[], rfl, rfl, by simp⟩
  | i :: rest, hw => by
    obtain ⟨h, hh⟩ := from_bytes_ok _ (hw i (List.mem_cons_self i rest))
    obtain ⟨hs, h1, h2, h3⟩ := decodeWindows_ok data off rest
      (fun j hj => hw j (List.mem_cons_of_mem _ hj))
    refine ⟨h :: hs, ?_, by simp [h2], ?_⟩
    · simp [decodeWindows, hh, h1, exc_ok_bind, exc_map_ok]
    · intro x hx
      rcases List.mem_cons.mp hx with hx | hx
      · exact ⟨i, List.mem_cons_self i rest, by rw [hx]; exact hh⟩
      · obtain ⟨j, hj, hje⟩ := h3 x hx
        exact ⟨j, List.mem_cons_of_mem _ hj, hje⟩

theorem decodeWindows_mem (data : List Nat) (off : Int) :
    ∀ (idxs : List Nat) (hs : List Hero),
      decodeWindows data off idxs = .ok hs →
      ∀ h ∈ hs, ∃ i, Hero.from_bytes (heroWindow data off i) = .ok h
  | [], hs, he => by
    simp only [decodeWindows, Except.ok.injEq] at he
    subst he
    simp
  | i :: rest, hs, he => by
    unfold decodeWindows at he
    cases hfb : Hero.from_bytes (heroWindow data off i) with
    | error e => rw [hfb, exc_error_bind] at he; exact absurd he (by simp)
    | ok h =>
      rw [hfb] at he
      cases hrest : decodeWindows data off rest with
      | error e => rw [hrest, exc_ok_bind] at he; simp [exc_map_error] at he
      | ok hs2 =>
        rw [hrest] at he
        simp only [exc_ok_bind, exc_map_ok, exc_pure, Except.ok.injEq] at he
        subst he
        intro x hx
        rcases List.mem_cons.mp hx with hx | hx
        · exact ⟨i, by rw [hx]; exact hfb⟩
        · exact decodeWindows_mem data off rest hs2 hrest x hx

/-- Successful container decode with a nonnegative in-range offset: the record
windows are all full, so every record decodes and the `SaveGame` is exactly the
slices the source computes. -/
theorem from_file_ok (data : List Nat) (hl : 20 ≤ data.length)
    (h0 : 0 ≤ readI32 data 16)
    (hle : readI32 data 16 ≤ (data.length : Int)) :
    ∃ hs, SaveGame.from_file data = .ok {
        version_header := pySlice data 0 16
        chr_offset := readI32 data 16
        metadata := pySlice data 20 30
        pre_hero_data := pySliceI data 20 (readI32 data 16)
        heroes := hs } ∧
      (hs.length : Int) =
        Int.fdiv ((data.length : Int) - readI32 data 16) 1754 ∧
      ∀ h ∈ hs, ∃ i, Hero.from_bytes (heroWindow data (readI32 data 16) i)
        = .ok h := by
  set off := readI32 data 16 with hoff
  have hnum : Int.fdiv ((data.length : Int) - off) CHR_SIZE
      = ((data.length : Int) - off) / 1754 := by
    rw [Int.fdiv_eq_ediv _ (by unfold CHR_SIZE; omega)]
    unfold CHR_SIZE
    push_cast
    rfl
  have hwin : ∀ i ∈ List.range
      (Int.fdiv ((data.length : Int) - off) CHR_SIZE).toNat,
      1754 ≤ (heroWindow data off i).length := by
    intro i hi
    rw [List.mem_range, hnum] at hi
    rw [length_heroWindow data off i h0 (by omega)]
  obtain ⟨hs, hdw, hlen, hmem⟩ := decodeWindows_ok data off _ hwin
  refine ⟨hs, ?_, ?_, fun h hh => (hmem h hh).imp fun i hi => hi.2⟩
  · unfold SaveGame.from_file
    rw [if_neg (by omega)]
    simp only [← hoff, hdw, exc_map_ok, exc_ok_bind, exc_pure]
  · rw [hlen, List.length_range, hnum,
      Int.fdiv_eq_ediv _ (show (0 : Int) ≤ 1754 by omega)]
    omega

theorem opt_pure {a : Type} (x : a) : (pure x : Option a) = some x := rfl

theorem inSignedRange_readI32 (d : List Nat) (off : Nat) (hb : isBytes d) :
    inSignedRange 32 (readI32 d off) :=
  inSignedRange_toSigned 32 _ (by omega)
    (by simpa using readLE_lt d off 4 hb)

theorem flatten_length_const : ∀ (bs : List (List Nat)) (c : Nat),
    (∀ b ∈ bs, b.length = c) → bs.flatten.length = c * bs.length
  | [], c, _ => by simp
  | b :: rest, c, h => by
    have ih := flatten_length_const rest c
      (fun y hy => h y (List.mem_cons_of_mem _ hy))
    simp [ih, h b (List.mem_cons_self b rest)]
    ring

theorem encodeHeroes_ok : ∀ hs : List Hero,
    (∀ x ∈ hs, x.encodeChecks ∧ x.name.length ≤ 16 ∧ x.name2.length ≤ 16 ∧
      x.unknown_tail.length = 591) →
    ∃ bs, encodeHeroes hs = some bs ∧ bs.length = hs.length ∧
      ∀ b ∈ bs, b.length = 1754
  | [], _ => ⟨[], rfl, rfl, by simp⟩
  | x :: rest, hx => by
    obtain ⟨hc, hn1, hn2, ht⟩ := hx x (List.mem_cons_self x rest)
    obtain ⟨bs, h1, h2, h3⟩ := encodeHeroes_ok rest
      (fun y hy => hx y (List.mem_cons_of_mem _ hy))
    refine ⟨heroNF x :: bs, ?_, by simp [h2], ?_⟩
    · simp [encodeHeroes, to_bytes_eq_heroNF x hc hn1 hn2, h1,
        opt_some_bind, opt_map_some, opt_pure]
    · intro b hb
      rcases List.mem_cons.mp hb with hb | hb
      · rw [hb, length_heroNF x hn1 hn2, ht]
        omega
      · exact h3 b hb

theorem length_packI32_4 (v : Int) : (packI32 v).length = 4 := by
  simp [packI32]

theorem save_to_file_ok (s : SaveGame) (hr : inSignedRange 32 s.chr_offset)
    (hh : ∀ x ∈ s.heroes, x.encodeChecks ∧ x.name.length ≤ 16 ∧
      x.name2.length ≤ 16 ∧ x.unknown_tail.length = 591) :
    ∃ out, SaveGame.save_to_file s = some out ∧
      out.length = s.version_header.length + 4 + s.pre_hero_data.length +
        1754 * s.heroes.length := by
  obtain ⟨bs, h1, h2, h3⟩ := encodeHeroes_ok s.heroes hh
  refine ⟨s.version_header ++ packI32 s.chr_offset ++ s.pre_hero_data ++
    bs.flatten, ?_, ?_⟩
  · unfold SaveGame.save_to_file
    rw [if_pos hr, h1]
    rfl
  · simp [length_packI32_4, flatten_length_const bs 1754 h3, h2]
    ring

/-- The container decode as one equation, once past the header check. -/
theorem from_file_eq (data : List Nat) (h : ¬ data.length < 20) :
    SaveGame.from_file data =
      Except.map
        (fun heroes => {
          version_header := pySlice data 0 16
          chr_offset := readI32 data 16
          metadata := pySlice data 20 30
          pre_hero_data := pySliceI data 20 (readI32 data 16)
          heroes := heroes : SaveGame })
        (decodeWindows data (readI32 data 16)
          (List.range
            (Int.fdiv ((data.length : Int) - readI32 data 16)
              (CHR_SIZE : Int)).toNat)) := by
  unfold SaveGame.from_file
  rw [if_neg h]
  rfl

theorem from_file_heroes (data : List Nat) (s : SaveGame)
    (he : SaveGame.from_file data = .ok s) :
    decodeWindows data (readI32 data 16)
      (List.range
        (Int.fdiv ((data.length : Int) - readI32 data 16)
          (CHR_SIZE : Int)).toNat) = .ok s.heroes := by
  have h20 : ¬ data.length < 20 := by
    intro hlt
    rw [SaveGame.from_file, if_pos hlt] at he
    exact absurd he (by simp)
  rw [from_file_eq data h20] at he
  cases hdw : decodeWindows data (readI32 data 16)
      (List.range
        (Int.fdiv ((data.length : Int) - readI32 data 16)
          (CHR_SIZE : Int)).toNat) with
  | error e =>
    rw [hdw] at he
    exact absurd he (by simp [Except.map])
  | ok hs =>
    rw [hdw] at he
    simp only [Except.map, Except.ok.injEq] at he
    rw [← he]

/-! ## Claims C6, C7, C9, C10 -/

/-- C6: decoding a record buffer shorter than 1754 bytes fails with
`truncatedRecord`, and decoding a file shorter than 20 bytes fails with
`truncatedHeader`. -/
theorem C6_truncation_detection (B F : List Nat)
    (hB : B.length < CHR_SIZE) (hF : F.length < 20) :
    Hero.from_bytes B = .error .truncatedRecord ∧
      SaveGame.from_file F = .error .truncatedHeader := by
  constructor
  · unfold Hero.from_bytes
    rw [if_pos hB]
  · unfold SaveGame.from_file
    rw [if_pos hF]

/-- C6 (witness): at a 1000-byte record buffer and a 10-byte file. -/
theorem C6_truncation_detection_witness :
    (List.replicate 1000 0 : List Nat).length < CHR_SIZE ∧
      (List.replicate 10 0 : List Nat).length < 20 ∧
      (Hero.from_bytes (List.replicate 1000 0) = .error .truncatedRecord ∧
        SaveGame.from_file (List.replicate 10 0) =
          .error .truncatedHeader) :=
  ⟨by simp [CHR_SIZE], by simp,
    C6_truncation_detection _ _ (by simp [CHR_SIZE]) (by simp)⟩

/-- A 20-byte file whose `chr_offset` field holds 0 (less than the header
size). -/
def C7f : List Nat := List.replicate 16 0 ++ [0, 0, 0, 0]

/-- C7 (counterexample): the source performs no offset bounds check — a file
whose `chr_offset` is 0 (< 20) decodes successfully instead of failing with
`InvalidOffset`. -/
theorem C7_counterexample :
    readI32 C7f 16 < 20 ∧
      SaveGame.from_file C7f =
        .ok ⟨List.replicate 16 0, 0, [], [], []⟩ := by decide

/-- C7 (amended): `SaveGame.from_file` validates nothing about `chr_offset`:
for every file of at least 20 bytes whose `chr_offset` is nonnegative and at
most the file length — including offsets below 20 — the decode succeeds. -/
theorem C7_no_offset_check (data : List Nat) (hl : 20 ≤ data.length)
    (h0 : 0 ≤ readI32 data 16)
    (hle : readI32 data 16 ≤ (data.length : Int)) :
    ∃ s, SaveGame.from_file data = .ok s ∧
      s.chr_offset = readI32 data 16 := by
  obtain ⟨hs, hfile, -, -⟩ := from_file_ok data hl h0 hle
  exact ⟨_, hfile, rfl⟩

/-- C7 (witness): the amended statement at a 20-byte file with offset 0. -/
theorem C7_no_offset_check_witness :
    20 ≤ C7f.length ∧ 0 ≤ readI32 C7f 16 ∧
      readI32 C7f 16 ≤ (C7f.length : Int) ∧
      ∃ s, SaveGame.from_file C7f = .ok s ∧
        s.chr_offset = readI32 C7f 16 :=
  ⟨by decide, by decide, by decide,
    C7_no_offset_check C7f (by decide) (by decide) (by decide)⟩

/-- A 25-byte file: `chr_offset` 20 followed by 5 remainder bytes `9`. -/
def C9f : List Nat :=
  List.replicate 16 0 ++ [20, 0, 0, 0] ++ [9, 9, 9, 9, 9]

/-- C9 (counterexample): the remainder bytes after the last full record are
NOT retained nowhere — `metadata = data[20:30]` picks them up: this 25-byte
file decodes with the 5 remainder bytes `9` inside `metadata`. -/
theorem C9_counterexample :
    (C9f.length - (readI32 C9f 16).toNat) % 1754 ≠ 0 ∧
      SaveGame.from_file C9f =
        .ok ⟨List.replicate 16 0, 20, [9, 9, 9, 9, 9], [], []⟩ := by decide

/-- C9 (amended): for every file whose `chr_offset` lies between 20 and the
file length, decode succeeds with `floor((len - chr_offset) / 1754)` heroes,
and re-encoding drops exactly the `(len - chr_offset) mod 1754` remainder
bytes (though the decoded `SaveGame` retains remainder bytes in `metadata`
whenever `chr_offset < 30`). -/
theorem C9_remainder_dropped (data : List Nat) (hb : isBytes data)
    (h20 : 20 ≤ readI32 data 16)
    (hle : readI32 data 16 ≤ (data.length : Int)) :
    ∃ s out, SaveGame.from_file data = .ok s ∧
      (s.heroes.length : Int) =
        Int.fdiv ((data.length : Int) - readI32 data 16) 1754 ∧
      SaveGame.save_to_file s = some out ∧
      (out.length : Int) =
        (data.length : Int) -
          ((data.length : Int) - readI32 data 16) % 1754 := by
  have hl : 20 ≤ data.length := by omega
  obtain ⟨hs, hfile, hcnt, hmem⟩ := from_file_ok data hl (by omega) hle
  have hprops : ∀ x ∈ hs, x.encodeChecks ∧ x.name.length ≤ 16 ∧
      x.name2.length ≤ 16 ∧ x.unknown_tail.length = 591 := by
    intro x hx
    obtain ⟨i, hi⟩ := hmem x hx
    have hwle := length_heroWindow_le data (readI32 data 16) i
    have hshape := from_bytes_shape _ _ hi
    have hwf := from_bytes_wf _ _ (isBytes_pySliceI hb _ _) hi
    exact ⟨hwf.1, hwf.2.1, hwf.2.2.2.1, by omega⟩
  obtain ⟨out, hsave, hlen⟩ :=
    save_to_file_ok
      { version_header := pySlice data 0 16
        chr_offset := readI32 data 16
        metadata := pySlice data 20 30
        pre_hero_data := pySliceI data 20 (readI32 data 16)
        heroes := hs }
      (inSignedRange_readI32 data 16 hb) hprops
  have hcnt2 := hcnt
  rw [Int.fdiv_eq_ediv _ (show (0 : Int) ≤ 1754 by omega)] at hcnt2
  refine ⟨_, out, hfile, hcnt, hsave, ?_⟩
  have hv : (pySlice data 0 16).length = 16 := by
    simp [pySlice]
    omega
  have hp : (pySliceI data 20 (readI32 data 16)).length
      = (readI32 data 16 - 20).toNat :=
    length_pySliceI data 20 (readI32 data 16) (by omega) (by omega) hle
  simp only [hv, hp] at hlen
  omega

/-- C9 (witness): the amended statement at the 25-byte file with a 5-byte
remainder. -/
theorem C9_remainder_dropped_witness :
    isBytes C9f ∧ 20 ≤ readI32 C9f 16 ∧
      readI32 C9f 16 ≤ (C9f.length : Int) ∧
      ∃ s out, SaveGame.from_file C9f = .ok s ∧
        (s.heroes.length : Int) =
          Int.fdiv ((C9f.length : Int) - readI32 C9f 16) 1754 ∧
        SaveGame.save_to_file s = some out ∧
        (out.length : Int) =
          (C9f.length : Int) -
            ((C9f.length : Int) - readI32 C9f 16) % 1754 :=
  ⟨by decide, by decide, by decide,
    C9_remainder_dropped C9f (by decide) (by decide) (by decide)⟩

/-- C10: decode totality and length invariants — every buffer of at least
1754 bytes decodes to a hero with a 1024-byte portrait and a tail of
`length - 1163` bytes, and every hero decoded by `SaveGame.from_file`
(which slices 1754-byte windows) has a 591-byte tail. -/
theorem C10_decode_totality :
    (∀ B : List Nat, 1754 ≤ B.length →
      ∃ h, Hero.from_bytes B = .ok h ∧ h.portrait.length = 1024 ∧
        h.unknown_tail.length = B.length - 1163) ∧
    ∀ (data : List Nat) (s : SaveGame),
      SaveGame.from_file data = .ok s →
      ∀ h ∈ s.heroes, h.unknown_tail.length = 591 := by
  constructor
  · intro B hl
    obtain ⟨h, hh⟩ := from_bytes_ok B hl
    obtain ⟨-, hp, ht⟩ := from_bytes_shape B h hh
    exact ⟨h, hh, hp, ht⟩
  · intro data s hfile h hmem
    have hdw := from_file_heroes data s hfile
    obtain ⟨i, hi⟩ := decodeWindows_mem data (readI32 data 16) _ _ hdw h hmem
    have hshape := from_bytes_shape _ _ hi
    have hwle := length_heroWindow_le data (readI32 data 16) i
    omega

/-- The `SaveGame` that `C7f` decodes to (no heroes). -/
def sC7 : SaveGame := ⟨List.replicate 16 0, 0, [], [], []⟩

/-- C10 (witness): part one at the all-zero full record, part two at the
20-byte file `C7f`. -/
theorem C10_decode_totality_witness :
    (1754 ≤ B0.length ∧
      ∃ h, Hero.from_bytes B0 = .ok h ∧ h.portrait.length = 1024 ∧
        h.unknown_tail.length = B0.length - 1163) ∧
    (SaveGame.from_file C7f = .ok sC7 ∧
      ∀ h ∈ sC7.heroes, h.unknown_tail.length = 591) :=
  ⟨⟨by simp [B0], C10_decode_totality.1 B0 (by simp [B0])⟩,
    ⟨by decide, C10_decode_totality.2 C7f sC7 (by decide)⟩⟩

end DSA
